import Mathlib

/-!
# go-3d-engine: geometry loader and free-look camera

A shallow embedding of `loaders/obj.go` (the function `LoadObj`) and of
`camera/camera.go` (`New`, `HandleKeyboard`, `HandleMouse`, `updateVectors`),
followed by the properties proved about them.

Conventions of the embedding.

* A Go panic (index out of range) is the value `none`.
* The geometry resource is the content of the opened file, a `String`.  Its
  lines are the pieces between line feeds (`sourceLines`); the loop
  `for scanner.Scan()` sees the lines that `bufio.Scanner` delivers
  (`scanLines`), which end before the first line that does not fit the
  scanner's buffer of 64 KiB.  Read errors of the file are not modelled.
* `float32`/`float64` values of the loader are opaque: the loader only stores
  what `strconv.ParseFloat` returns, so the float type `F` and the parsing
  function are parameters.
* The camera is written over an arbitrary linearly ordered field `K` (exact
  arithmetic), with the functions of Go's `math` package that it calls
  (`Cos`, `Sin`, `Sqrt`, `Pi`) passed as a record; the trigonometric theorems
  instantiate `K` with the real numbers.
-/

namespace loaders

/-! ## Library functions used by `LoadObj` -/

/-- Go's `unicode.IsSpace`: the runes with the Unicode White_Space property. -/
def isSpace (c : Char) : Bool :=
  let n := c.toNat
  (9 ≤ n && n ≤ 13) || n == 0x20 || n == 0x85 || n == 0xA0 || n == 0x1680 ||
  (0x2000 ≤ n && n ≤ 0x200A) || n == 0x2028 || n == 0x2029 || n == 0x202F ||
  n == 0x205F || n == 0x3000

/-- Scanning loop of `strings.Fields`: `cur` is the field being read, reversed. -/
def fieldsAux : List Char → List Char → List String
  | [], cur => if cur.isEmpty then [] else [String.mk cur.reverse]
  | c :: cs, cur =>
    if isSpace c then
      if cur.isEmpty then fieldsAux cs [] else String.mk cur.reverse :: fieldsAux cs []
    else fieldsAux cs (c :: cur)

/-- Go's `strings.Fields`: the maximal runs of non-space runes, in order. -/
def Fields (s : String) : List String := fieldsAux s.data []

/-- Scanning loop of `strings.Split` for a one-rune separator. -/
def splitAux (sep : Char) : List Char → List Char → List String
  | [], cur => [String.mk cur.reverse]
  | c :: cs, cur =>
    if c = sep then String.mk cur.reverse :: splitAux sep cs [] else splitAux sep cs (c :: cur)

/-- Go's `strings.Split(s, sep)` for a separator of one rune (here always `/`). -/
def Split (s : String) (sep : Char) : List String := splitAux sep s.data []

/-- Digit loop of `strconv.ParseUint` for base 10 and 64 bits, `n` being the
value read so far: `none` on a syntax error (a byte that is no decimal digit);
on a range error the maximal value `2^64-1`, returned as soon as the overflow
is seen, before the remaining bytes are looked at. -/
def parseUintLoop : List Char → Nat → Option Nat
  | [], n => some n
  | c :: cs, n =>
    if c.isDigit then
      if n ≥ 1844674407370955162 then some 18446744073709551615
      else if n * 10 + (c.toNat - 48) > 18446744073709551615 then some 18446744073709551615
      else parseUintLoop cs (n * 10 + (c.toNat - 48))
    else none

/-- Go's `strconv.Atoi` on a 64-bit platform with the error dropped
(`vIdx, _ := strconv.Atoi(..)`): `0` on a syntax error, the nearest bound of
`int64` on a range error. -/
def Atoi (s : String) : Int :=
  match s.data with
  | [] => 0
  | c :: cs =>
    let neg := c == '-'
    let ds := if c == '-' || c == '+' then cs else c :: cs
    if ds.isEmpty then 0
    else
      match parseUintLoop ds 0 with
      | none => 0
      | some un =>
        if !neg && un ≥ 9223372036854775808 then 9223372036854775807
        else if neg && un > 9223372036854775808 then -9223372036854775808
        else if neg then -(un : Int) else (un : Int)

/-- Slice indexing `xs[i]` with a signed index: a panic (`none`) when `i` is
negative or not below the length.  The index expressions of `LoadObj` are
`vIdx-1` with `vIdx` the result of `Atoi`; the subtraction is taken in the
integers, because it can only wrap for `vIdx = -2^63`, where the wrapped value
`2^63-1` is no valid index of a slice either. -/
def index {α : Type} (xs : List α) (i : Int) : Option α :=
  if 0 ≤ i then xs.get? i.toNat else none

/-! ## The scanner (`bufio.Scanner` with `bufio.ScanLines`) -/

/-- Number of bytes of the UTF-8 encoding of a rune. -/
def runeLen (c : Char) : Nat :=
  if c.toNat < 0x80 then 1 else if c.toNat < 0x800 then 2 else if c.toNat < 0x10000 then 3 else 4

/-- Number of bytes of a piece of text. -/
def byteLen : List Char → Nat
  | [] => 0
  | c :: cs => runeLen c + byteLen cs

/-- Splitting loop of `rawLines`: `cur` is the line being read, reversed. -/
def rawLinesAux : List Char → List Char → List (List Char)
  | [], cur => if cur.isEmpty then [] else [cur.reverse]
  | c :: cs, cur =>
    if c = '\n' then cur.reverse :: rawLinesAux cs [] else rawLinesAux cs (c :: cur)

/-- The raw lines of a file, as `bufio.ScanLines` cuts them: the pieces that
end at a line feed, and the piece after the last line feed when that piece is
not empty. -/
def rawLines (content : String) : List (List Char) := rawLinesAux content.data []

/-- The function `dropCR` of `bufio`: a trailing carriage return is removed. -/
def dropCR : List Char → List Char
  | [] => []
  | [c] => if c = '\r' then [] else [c]
  | c :: d :: cs => c :: dropCR (d :: cs)

/-- The constant `bufio.MaxScanTokenSize`, the largest size of the buffer of a
scanner made by `bufio.NewScanner`. -/
def MaxScanTokenSize : Nat := 64 * 1024

/-- The raw line fits the scanner: the line feed that ends it (or the end of
the file) is met before `MaxScanTokenSize` bytes without a line feed have
filled the buffer. -/
def fits (raw : List Char) : Bool := decide (byteLen raw < MaxScanTokenSize)

/-- The values of `scanner.Text()` over the loop `for scanner.Scan()`.  `Scan`
delivers the raw lines in order, each without its trailing carriage return; at
the first raw line that does not fit it sets the error `ErrTooLong` and
returns false, which ends the loop (`LoadObj` never reads `scanner.Err()`). -/
def scanLines (content : String) : List String :=
  ((rawLines content).takeWhile fits).map fun raw => String.mk (dropCR raw)

/-! ## The material map `map[string][]float32` -/

/-- Map read `m[k]`: the stored slice, or the nil slice when `k` is absent. -/
def mapGet {F : Type} : List (String × List F) → String → List F
  | [], _ => []
  | (k0, v0) :: rest, k => if k0 = k then v0 else mapGet rest k

/-- Map write `m[k] = v`. -/
def mapSet {F : Type} : List (String × List F) → String → List F → List (String × List F)
  | [], k, v => [(k, v)]
  | (k0, v0) :: rest, k, v =>
    if k0 = k then (k0, v) :: rest else (k0, v0) :: mapSet rest k v

/-- The keys present in the map. -/
def mapKeys {F : Type} (m : List (String × List F)) : List String := m.map Prod.fst

/-- Total number of floats stored in the map. -/
def totalLength {F : Type} (m : List (String × List F)) : Nat :=
  (m.map fun e => e.2.length).sum

/-! ## `LoadObj` -/

/-- The local variables of `LoadObj` that live across loop iterations. -/
structure LoaderState (F : Type) where
  vertices : List (F × F × F)
  textures : List (F × F)
  normals : List (F × F × F)
  finalData : List (String × List F)
  currentMaterial : String

/-- State at loop entry: empty slices, empty map, material `"default"`. -/
def LoaderState.init (F : Type) : LoaderState F :=
  { vertices := [], textures := [], normals := [], finalData := [],
    currentMaterial := "default" }

/-- The state after `finalData[currentMaterial] = append(finalData[currentMaterial], d...)`. -/
def appendData {F : Type} (s : LoaderState F) (d : List F) : LoaderState F :=
  { s with
    finalData := mapSet s.finalData s.currentMaterial (mapGet s.finalData s.currentMaterial ++ d) }

/-- Body of the loop `for i := 1; i <= 3; i++` of the `"f"` case, for one `i`. -/
def faceCorner {F : Type} (s : LoaderState F) (parts : List String) (i : Nat) :
    Option (LoaderState F) :=
  match parts.get? i with
  | none => none
  | some part =>
    let subParts := Split part '/'
    match subParts.get? 0 with
    | none => none
    | some s0 =>
      match index s.vertices (Atoi s0 - 1) with
      | none => none
      | some v =>
        match subParts.get? 1 with
        | none => none
        | some s1 =>
          match index s.textures (Atoi s1 - 1) with
          | none => none
          | some t =>
            match subParts.get? 2 with
            | none => none
            | some s2 =>
              match index s.normals (Atoi s2 - 1) with
              | none => none
              | some n =>
                some { s with
                  finalData := mapSet s.finalData s.currentMaterial
                    (mapGet s.finalData s.currentMaterial ++
                      [v.1, v.2.1, v.2.2, n.1, n.2.1, n.2.2, t.1, t.2]) }

/-- One iteration of the scanner loop on the line `line`. -/
def processLine {F : Type} (ParseFloat : String → F) (s : LoaderState F) (line : String) :
    Option (LoaderState F) :=
  match Fields line with
  | [] => some s
  | tag :: args =>
    if tag = "mtllib" then some s
    else if tag = "usemtl" then
      match args with
      | name :: _ => some { s with currentMaterial := name }
      | [] => none
    else if tag = "v" then
      match args with
      | x :: y :: z :: _ =>
        some { s with vertices := s.vertices ++ [(ParseFloat x, ParseFloat y, ParseFloat z)] }
      | _ => none
    else if tag = "vt" then
      match args with
      | u :: v :: _ => some { s with textures := s.textures ++ [(ParseFloat u, ParseFloat v)] }
      | _ => none
    else if tag = "vn" then
      match args with
      | x :: y :: z :: _ =>
        some { s with normals := s.normals ++ [(ParseFloat x, ParseFloat y, ParseFloat z)] }
      | _ => none
    else if tag = "f" then
      (((faceCorner s (tag :: args) 1).bind fun s1 => faceCorner s1 (tag :: args) 2).bind
        fun s2 => faceCorner s2 (tag :: args) 3)
    else some s

/-- The scanner loop over the remaining lines. -/
def runLines {F : Type} (ParseFloat : String → F) :
    LoaderState F → List String → Option (LoaderState F)
  | s, [] => some s
  | s, line :: rest =>
    match processLine ParseFloat s line with
    | none => none
    | some s1 => runLines ParseFloat s1 rest

/-- The function `LoadObj` on the content of the opened file: the returned
map, or `none` when the function panics. -/
def LoadObj {F : Type} (ParseFloat : String → F) (content : String) :
    Option (List (String × List F)) :=
  (runLines ParseFloat (LoaderState.init F) (scanLines content)).map LoaderState.finalData

/-! ## The resource read record by record (specification side) -/

/-- The lines of the source: every raw line of the file, without its trailing
carriage return. -/
def sourceLines (content : String) : List String :=
  (rawLines content).map fun raw => String.mk (dropCR raw)

/-- Every line of the resource paired with the lines before it; `pre` holds the
lines already passed. -/
def recordsFrom (pre : List String) : List String → List (List String × String)
  | [] => []
  | l :: ls => (pre, l) :: recordsFrom (pre ++ [l]) ls

/-- Every line of the resource paired with the lines that precede it. -/
def records (lines : List String) : List (List String × String) := recordsFrom [] lines

/-- The first field of the line is `tag`. -/
def hasTag (tag : String) (line : String) : Bool :=
  match Fields line with
  | [] => false
  | t :: _ => t == tag

/-- A face record: a line whose first field is `f`. -/
def isFace (line : String) : Bool := hasTag "f" line

/-- Number of records with the given tag (`v`, `vt`, `vn`) among `lines`. -/
def declared (tag : String) (lines : List String) : Nat := (lines.filter (hasTag tag)).length

/-- The position a `v` record declares. -/
def positionOf {F : Type} (ParseFloat : String → F) (line : String) : Option (F × F × F) :=
  match Fields line with
  | tag :: x :: y :: z :: _ =>
    if tag = "v" then some (ParseFloat x, ParseFloat y, ParseFloat z) else none
  | _ => none

/-- The texture coordinate a `vt` record declares. -/
def texcoordOf {F : Type} (ParseFloat : String → F) (line : String) : Option (F × F) :=
  match Fields line with
  | tag :: u :: v :: _ => if tag = "vt" then some (ParseFloat u, ParseFloat v) else none
  | _ => none

/-- The normal a `vn` record declares. -/
def normalOf {F : Type} (ParseFloat : String → F) (line : String) : Option (F × F × F) :=
  match Fields line with
  | tag :: x :: y :: z :: _ =>
    if tag = "vn" then some (ParseFloat x, ParseFloat y, ParseFloat z) else none
  | _ => none

/-- The material a `usemtl` record switches to. -/
def materialOf (line : String) : Option String :=
  match Fields line with
  | tag :: name :: _ => if tag = "usemtl" then some name else none
  | _ => none

/-- The material that is current after `lines`, starting from `cur`: the name
of the last material switch, `cur` without one. -/
def currentFrom (cur : String) (lines : List String) : String :=
  lines.foldl (fun c l => (materialOf l).getD c) cur

/-- The material that is current after the lines `lines` of a resource. -/
def currentAt (lines : List String) : String := currentFrom "default" lines

/-- The interleaved vertex of a corner `p/t/n` (1-based indices):
`positions[p-1]`, then `normals[n-1]`, then `texcoords[t-1]`. -/
def vertexFloats {F : Type} (pos : List (F × F × F)) (tex : List (F × F))
    (nor : List (F × F × F)) (p t n : Int) : Option (List F) :=
  match index pos (p - 1), index nor (n - 1), index tex (t - 1) with
  | some v, some vn, some vt => some [v.1, v.2.1, v.2.2, vn.1, vn.2.1, vn.2.2, vt.1, vt.2]
  | _, _, _ => none

/-- The interleaved vertex of a corner descriptor `position/texcoord/normal`. -/
def cornerFloats {F : Type} (pos : List (F × F × F)) (tex : List (F × F))
    (nor : List (F × F × F)) (corner : String) : Option (List F) :=
  match Split corner '/' with
  | ps :: ts :: ns :: _ => vertexFloats pos tex nor (Atoi ps) (Atoi ts) (Atoi ns)
  | _ => none

/-- The 24 floats of a face record with fields `parts`: the vertices of its
first three corners, in order. -/
def faceFloats {F : Type} (pos : List (F × F × F)) (tex : List (F × F))
    (nor : List (F × F × F)) (parts : List String) : Option (List F) :=
  match parts with
  | _ :: c1 :: c2 :: c3 :: _ =>
    match cornerFloats pos tex nor c1, cornerFloats pos tex nor c2,
        cornerFloats pos tex nor c3 with
    | some d1, some d2, some d3 => some (d1 ++ d2 ++ d3)
    | _, _, _ => none
  | _ => none

/-- The face data of the record `line`, resolved against the positions,
texture coordinates and normals declared by the lines `pre` before it. -/
def faceData {F : Type} (ParseFloat : String → F) (pre : List String) (line : String) :
    List F :=
  (faceFloats (pre.filterMap (positionOf ParseFloat)) (pre.filterMap (texcoordOf ParseFloat))
    (pre.filterMap (normalOf ParseFloat)) (Fields line)).getD []

/-- The face records of the resource that are read while material `k` is
current, each with the lines before it. -/
def facesOf (k : String) (lines : List String) : List (List String × String) :=
  (records lines).filter fun r => isFace r.2 && currentAt r.1 == k

/-- Number of face records seen while material `k` was current. -/
def facesFor (k : String) (lines : List String) : Nat := (facesOf k lines).length

/-- The face data of material `k`, in source order. -/
def materialData {F : Type} (ParseFloat : String → F) (k : String) (lines : List String) :
    List F :=
  ((facesOf k lines).map fun r => faceData ParseFloat r.1 r.2).flatten

/-- Total number of face records in the resource. -/
def faceCount (lines : List String) : Nat := (lines.filter isFace).length

/-- The corner descriptor has (at least) the three fields `p/t/n`, with
`1 ≤ p ≤ np`, `1 ≤ t ≤ nt` and `1 ≤ n ≤ nn`. -/
def cornerOk (np nt nn : Nat) (corner : String) : Bool :=
  match Split corner '/' with
  | ps :: ts :: ns :: _ =>
    decide (1 ≤ Atoi ps) && decide (Atoi ps ≤ np) && decide (1 ≤ Atoi ts) &&
      decide (Atoi ts ≤ nt) && decide (1 ≤ Atoi ns) && decide (Atoi ns ≤ nn)
  | _ => false

/-- The record is well formed, given the numbers of positions, texture
coordinates and normals declared before it: a material switch names a
material, a position or normal record has three coordinates and a texture
coordinate record two, and a face record has three corners that satisfy
`cornerOk`.  Blank lines and records with any other tag are well formed. -/
def recordOk (np nt nn : Nat) (line : String) : Bool :=
  match Fields line with
  | [] => true
  | tag :: args =>
    if tag = "usemtl" then decide (1 ≤ args.length)
    else if tag = "v" then decide (3 ≤ args.length)
    else if tag = "vt" then decide (2 ≤ args.length)
    else if tag = "vn" then decide (3 ≤ args.length)
    else if tag = "f" then
      match args with
      | c1 :: c2 :: c3 :: _ => cornerOk np nt nn c1 && cornerOk np nt nn c2 && cornerOk np nt nn c3
      | _ => false
    else true

/-- Every record of the resource is well formed with respect to the records
declared before it. -/
def wellFormed (lines : List String) : Bool :=
  (records lines).all fun r =>
    recordOk (declared "v" r.1) (declared "vt" r.1) (declared "vn" r.1) r.2

/-- Every index that the corner descriptor gives is at most the corresponding
count: the first field against `np`, the second against `nt`, the third
against `nn`. -/
def cornerWithinCounts (np nt nn : Nat) (corner : String) : Bool :=
  let sub := Split corner '/'
  (sub.get? 0).all (fun x => decide (Atoi x ≤ np)) &&
  (sub.get? 1).all (fun x => decide (Atoi x ≤ nt)) &&
  (sub.get? 2).all (fun x => decide (Atoi x ≤ nn))

/-- Every face corner of the resource references indices that are at most the
counts of the positions, texture coordinates and normals declared before the
face record. -/
def indicesWithinCounts (lines : List String) : Bool :=
  (records lines).all fun r =>
    !isFace r.2 ||
      (Fields r.2).tail.all
        (cornerWithinCounts (declared "v" r.1) (declared "vt" r.1) (declared "vn" r.1))

/-- The loop invariant of `LoadObj`: what the state `s` holds after the lines
`lines` have been processed. -/
structure LoopInv {F : Type} (PF : String → F) (lines : List String) (s : LoaderState F) :
    Prop where
  vertices : s.vertices = lines.filterMap (positionOf PF)
  textures : s.textures = lines.filterMap (texcoordOf PF)
  normals : s.normals = lines.filterMap (normalOf PF)
  nVertices : s.vertices.length = declared "v" lines
  nTextures : s.textures.length = declared "vt" lines
  nNormals : s.normals.length = declared "vn" lines
  current : s.currentMaterial = currentAt lines
  data : ∀ k, mapGet s.finalData k = materialData PF k lines
  lengths : ∀ k, (mapGet s.finalData k).length = 24 * facesFor k lines
  nodup : (mapKeys s.finalData).Nodup
  keys : ∀ k ∈ mapKeys s.finalData, 0 < facesFor k lines
  total : totalLength s.finalData = 24 * faceCount lines
  entries : ∀ e ∈ s.finalData, 8 ∣ e.2.length

end loaders

namespace camera

/-! ## Vectors (`mgl32.Vec3`) and the `math` functions -/

/-- The type `mgl32.Vec3`, an array of three floats. -/
@[ext]
structure Vec3 (K : Type) where
  x : K
  y : K
  z : K

/-- The functions and the constant of Go's `math` package that the camera calls. -/
structure MathFns (K : Type) where
  Cos : K → K
  Sin : K → K
  Sqrt : K → K
  Pi : K

/-- Componentwise sum, `mgl32.Vec3.Add`. -/
def Vec3.Add {K : Type} [Field K] (v1 v2 : Vec3 K) : Vec3 K :=
  ⟨v1.x + v2.x, v1.y + v2.y, v1.z + v2.z⟩

/-- Componentwise difference, `mgl32.Vec3.Sub`. -/
def Vec3.Sub {K : Type} [Field K] (v1 v2 : Vec3 K) : Vec3 K :=
  ⟨v1.x - v2.x, v1.y - v2.y, v1.z - v2.z⟩

/-- Product with a scalar, `mgl32.Vec3.Mul`. -/
def Vec3.Mul {K : Type} [Field K] (v1 : Vec3 K) (c : K) : Vec3 K :=
  ⟨v1.x * c, v1.y * c, v1.z * c⟩

/-- Dot product, `mgl32.Vec3.Dot`. -/
def Vec3.Dot {K : Type} [Field K] (v1 v2 : Vec3 K) : K :=
  v1.x * v2.x + v1.y * v2.y + v1.z * v2.z

/-- Cross product, `mgl32.Vec3.Cross`. -/
def Vec3.Cross {K : Type} [Field K] (v1 v2 : Vec3 K) : Vec3 K :=
  ⟨v1.y * v2.z - v1.z * v2.y, v1.z * v2.x - v1.x * v2.z, v1.x * v2.y - v1.y * v2.x⟩

/-- Euclidean length, `mgl32.Vec3.Len`. -/
def Vec3.Len {K : Type} [Field K] (M : MathFns K) (v1 : Vec3 K) : K :=
  M.Sqrt (v1.x * v1.x + v1.y * v1.y + v1.z * v1.z)

/-- Scaling to unit length, `mgl32.Vec3.Normalize`: every component is
multiplied by `1 / Len`. -/
def Vec3.Normalize {K : Type} [Field K] (M : MathFns K) (v1 : Vec3 K) : Vec3 K :=
  let l := 1 / v1.Len M
  ⟨v1.x * l, v1.y * l, v1.z * l⟩

/-! ## The camera and the window -/

/-- The struct `Camera`. -/
structure Camera (K : Type) where
  Position : Vec3 K
  Front : Vec3 K
  Up : Vec3 K
  Right : Vec3 K
  WorldUp : Vec3 K
  Yaw : K
  Pitch : K
  Speed : K
  Sensitivity : K
  CursorLocked : Bool
  LastX : K
  LastY : K

/-- The cursor modes that `HandleMouse` sets with `SetInputMode`. -/
inductive CursorMode where
  | CursorNormal
  | CursorDisabled
  deriving DecidableEq

/-- What the camera reads from and writes to the `glfw.Window` in one call:
whether each of the six keys and the right mouse button reports `glfw.Press`,
the position `GetCursorPos` returns, and the cursor mode. -/
structure Window (K : Type) where
  KeyW : Bool
  KeyS : Bool
  KeyA : Bool
  KeyD : Bool
  KeySpace : Bool
  KeyLeftShift : Bool
  MouseButtonRight : Bool
  cursorX : K
  cursorY : K
  cursorMode : CursorMode

/-- The function `degToRad`. -/
def degToRad {K : Type} [Field K] (M : MathFns K) (d : K) : K := d * (M.Pi / 180)

/-- The method `updateVectors`. -/
def updateVectors {K : Type} [Field K] (M : MathFns K) (c : Camera K) : Camera K :=
  let front : Vec3 K :=
    ⟨M.Cos (degToRad M c.Yaw) * M.Cos (degToRad M c.Pitch),
     M.Sin (degToRad M c.Pitch),
     M.Sin (degToRad M c.Yaw) * M.Cos (degToRad M c.Pitch)⟩
  let c1 := { c with Front := front.Normalize M }
  let c2 := { c1 with Right := (c1.Front.Cross c1.WorldUp).Normalize M }
  { c2 with Up := (c2.Right.Cross c2.Front).Normalize M }

/-- The constructor `New`; the fields it does not name have Go's zero value. -/
def New {K : Type} [Field K] (M : MathFns K) (position : Vec3 K) : Camera K :=
  updateVectors M
    { Position := position
      Front := ⟨0, 0, 0⟩
      Up := ⟨0, 0, 0⟩
      Right := ⟨0, 0, 0⟩
      WorldUp := ⟨0, 1, 0⟩
      Yaw := -90
      Pitch := 0
      Speed := 5
      Sensitivity := 1 / 10
      CursorLocked := false
      LastX := 0
      LastY := 0 }

/-- The method `HandleKeyboard`. -/
def HandleKeyboard {K : Type} [Field K] (c : Camera K) (window : Window K) (deltaTime : K) :
    Camera K :=
  let velocity := c.Speed * deltaTime
  let c1 := if window.KeyW then { c with Position := c.Position.Add (c.Front.Mul velocity) } else c
  let c2 :=
    if window.KeyS then { c1 with Position := c1.Position.Sub (c1.Front.Mul velocity) } else c1
  let c3 :=
    if window.KeyA then { c2 with Position := c2.Position.Sub (c2.Right.Mul velocity) } else c2
  let c4 :=
    if window.KeyD then { c3 with Position := c3.Position.Add (c3.Right.Mul velocity) } else c3
  let c5 :=
    if window.KeySpace then { c4 with Position := c4.Position.Add (c4.WorldUp.Mul velocity) }
    else c4
  if window.KeyLeftShift then { c5 with Position := c5.Position.Sub (c5.WorldUp.Mul velocity) }
  else c5

/-- The method `HandleMouse`: the camera and the window after the call. -/
def HandleMouse {K : Type} [LinearOrderedField K] (M : MathFns K) (c : Camera K)
    (window : Window K) : Camera K × Window K :=
  if window.MouseButtonRight then
    if !c.CursorLocked then
      ({ c with CursorLocked := true, LastX := window.cursorX, LastY := window.cursorY },
       { window with cursorMode := CursorMode.CursorDisabled })
    else
      let xoffset := window.cursorX - c.LastX
      let yoffset := c.LastY - window.cursorY
      let c1 := { c with LastX := window.cursorX, LastY := window.cursorY }
      if |xoffset| > 100 ∨ |yoffset| > 100 then (c1, window)
      else
        let c2 := { c1 with Yaw := c1.Yaw + xoffset * c1.Sensitivity }
        let c3 := { c2 with Pitch := c2.Pitch + yoffset * c2.Sensitivity }
        let c4 := if c3.Pitch > 89 then { c3 with Pitch := 89 } else c3
        let c5 := if c4.Pitch < -89 then { c4 with Pitch := -89 } else c4
        (updateVectors M c5, window)
  else if c.CursorLocked then
    ({ c with CursorLocked := false }, { window with cursorMode := CursorMode.CursorNormal })
  else (c, window)

/-- The camera after a sequence of `HandleMouse` calls, one per window state. -/
def mouseCalls {K : Type} [LinearOrderedField K] (M : MathFns K) (c : Camera K)
    (windows : List (Window K)) : Camera K :=
  windows.foldl (fun c0 w => (HandleMouse M c0 w).1) c

/-- The vectors `front`, `right` and `up` are pairwise orthogonal and each has
length 1. -/
def Orthonormal {K : Type} [Field K] (M : MathFns K) (front right up : Vec3 K) : Prop :=
  front.Dot right = 0 ∧ front.Dot up = 0 ∧ right.Dot up = 0 ∧
  front.Len M = 1 ∧ right.Len M = 1 ∧ up.Len M = 1

/-- The value `1` for a pressed key and `0` for a released one. -/
def pressed {K : Type} [Field K] (b : Bool) : K := if b then 1 else 0

end camera

namespace loaders

/-! ## Facts about the material map -/

theorem mapGet_mapSet_same {F : Type} (m : List (String × List F)) (k : String) (v : List F) :
    mapGet (mapSet m k v) k = v := by
  induction m with
  | nil => simp [mapSet, mapGet]
  | cons e rest ih =>
    obtain ⟨k0, v0⟩ := e
    by_cases h : k0 = k
    · simp [mapSet, mapGet, h]
    · simp [mapSet, mapGet, h, ih]

theorem mapGet_mapSet_other {F : Type} (m : List (String × List F)) (k j : String)
    (v : List F) (hj : j ≠ k) : mapGet (mapSet m k v) j = mapGet m j := by
  induction m with
  | nil =>
    have : ¬ k = j := fun h => hj h.symm
    simp [mapSet, mapGet, this]
  | cons e rest ih =>
    obtain ⟨k0, v0⟩ := e
    by_cases h : k0 = k
    · subst h
      have : ¬ k0 = j := fun h2 => hj h2.symm
      simp [mapSet, mapGet, this]
    · by_cases h2 : k0 = j
      · subst h2
        simp [mapSet, mapGet, h]
      · simp [mapSet, mapGet, h, h2, ih]

theorem mapSet_mapSet {F : Type} (m : List (String × List F)) (k : String) (v w : List F) :
    mapSet (mapSet m k v) k w = mapSet m k w := by
  induction m with
  | nil => simp [mapSet]
  | cons e rest ih =>
    obtain ⟨k0, v0⟩ := e
    by_cases h : k0 = k
    · simp [mapSet, h]
    · simp [mapSet, h, ih]

theorem mapKeys_mapSet {F : Type} (m : List (String × List F)) (k : String) (v : List F) :
    mapKeys (mapSet m k v) = if k ∈ mapKeys m then mapKeys m else mapKeys m ++ [k] := by
  induction m with
  | nil => simp [mapSet, mapKeys]
  | cons e rest ih =>
    obtain ⟨k0, v0⟩ := e
    by_cases h : k0 = k
    · simp [mapSet, mapKeys, h]
    · have h2 : ¬ k = k0 := fun h3 => h h3.symm
      simp only [mapKeys] at ih
      by_cases h4 : k ∈ List.map Prod.fst rest
      · simp [mapSet, mapKeys, h, h2, ih, h4]
      · simp [mapSet, mapKeys, h, h2, ih, h4]

theorem totalLength_mapSet {F : Type} (m : List (String × List F)) (k : String) (v : List F) :
    totalLength (mapSet m k v) + (mapGet m k).length = totalLength m + v.length := by
  induction m with
  | nil => simp [mapSet, mapGet, totalLength]
  | cons e rest ih =>
    obtain ⟨k0, v0⟩ := e
    by_cases h : k0 = k
    · simp [mapSet, mapGet, totalLength, h]; omega
    · simp only [totalLength] at ih
      simp [mapSet, mapGet, totalLength, h]; omega

theorem mapGet_of_not_mem {F : Type} (m : List (String × List F)) (k : String)
    (h : k ∉ mapKeys m) : mapGet m k = [] := by
  induction m with
  | nil => simp [mapGet]
  | cons e rest ih =>
    obtain ⟨k0, v0⟩ := e
    simp only [mapKeys, List.map_cons, List.mem_cons, not_or] at h
    have h1 : ¬ k0 = k := fun h2 => h.1 h2.symm
    simp only [mapGet, h1, if_false]
    exact ih h.2

/-! ## One face record -/

theorem appendData_vertices {F : Type} (s : LoaderState F) (d : List F) :
    (appendData s d).vertices = s.vertices := rfl

theorem appendData_textures {F : Type} (s : LoaderState F) (d : List F) :
    (appendData s d).textures = s.textures := rfl

theorem appendData_normals {F : Type} (s : LoaderState F) (d : List F) :
    (appendData s d).normals = s.normals := rfl

theorem appendData_currentMaterial {F : Type} (s : LoaderState F) (d : List F) :
    (appendData s d).currentMaterial = s.currentMaterial := rfl

theorem appendData_appendData {F : Type} (s : LoaderState F) (d e : List F) :
    appendData (appendData s d) e = appendData s (d ++ e) := by
  simp [appendData, mapGet_mapSet_same, mapSet_mapSet, List.append_assoc]

theorem faceCorner_eq {F : Type} (s : LoaderState F) (parts : List String) (i : Nat) :
    faceCorner s parts i =
      (parts.get? i).bind fun c =>
        (cornerFloats s.vertices s.textures s.normals c).map (appendData s) := by
  unfold faceCorner
  cases hp : parts.get? i with
  | none => simp
  | some part =>
    simp only [Option.some_bind, cornerFloats, vertexFloats]
    generalize Split part '/' = sp
    match sp with
    | [] => simp
    | [s0] =>
      simp only [List.get?]
      generalize index s.vertices (Atoi s0 - 1) = a
      cases a <;> simp
    | [s0, s1] =>
      simp only [List.get?]
      generalize index s.vertices (Atoi s0 - 1) = a
      generalize index s.textures (Atoi s1 - 1) = b
      cases a <;> cases b <;> simp
    | s0 :: s1 :: s2 :: _ =>
      simp only [List.get?]
      generalize index s.vertices (Atoi s0 - 1) = a
      generalize index s.textures (Atoi s1 - 1) = b
      generalize index s.normals (Atoi s2 - 1) = c
      cases a <;> cases b <;> cases c <;> simp [appendData]

theorem cornerFloats_length {F : Type} (pos : List (F × F × F)) (tex : List (F × F))
    (nor : List (F × F × F)) (c : String) (d : List F)
    (h : cornerFloats pos tex nor c = some d) : d.length = 8 := by
  unfold cornerFloats at h
  split at h
  · unfold vertexFloats at h
    split at h
    · simp only [Option.some.injEq] at h
      subst h; rfl
    · simp at h
  · simp at h

theorem faceFloats_length {F : Type} (pos : List (F × F × F)) (tex : List (F × F))
    (nor : List (F × F × F)) (parts : List String) (d : List F)
    (h : faceFloats pos tex nor parts = some d) : d.length = 24 := by
  unfold faceFloats at h
  split at h
  · split at h
    · rename_i d1 d2 d3 h1 h2 h3
      simp only [Option.some.injEq] at h
      subst h
      simp [cornerFloats_length _ _ _ _ _ h1, cornerFloats_length _ _ _ _ _ h2,
        cornerFloats_length _ _ _ _ _ h3]
    · simp at h
  · simp at h

theorem faceLoop_eq {F : Type} (s : LoaderState F) (parts : List String) :
    (((faceCorner s parts 1).bind fun s1 => faceCorner s1 parts 2).bind
        fun s2 => faceCorner s2 parts 3) =
      (faceFloats s.vertices s.textures s.normals parts).map (appendData s) := by
  simp only [faceCorner_eq]
  unfold faceFloats
  match parts with
  | [] => simp
  | [_] => simp
  | [_, c1] =>
    cases cornerFloats s.vertices s.textures s.normals c1 <;> simp
  | [_, c1, c2] =>
    cases h1 : cornerFloats s.vertices s.textures s.normals c1 with
    | none => simp [h1]
    | some d1 =>
      cases h2 : cornerFloats s.vertices s.textures s.normals c2 <;>
        simp [h1, h2, appendData_vertices, appendData_textures, appendData_normals]
  | _ :: c1 :: c2 :: c3 :: _ =>
    cases h1 : cornerFloats s.vertices s.textures s.normals c1 with
    | none => simp [h1]
    | some d1 =>
      cases h2 : cornerFloats s.vertices s.textures s.normals c2 with
      | none => simp [h1, h2, appendData_vertices, appendData_textures, appendData_normals]
      | some d2 =>
        cases h3 : cornerFloats s.vertices s.textures s.normals c3 <;>
          simp [h1, h2, h3, appendData_vertices, appendData_textures, appendData_normals,
            appendData_appendData, List.append_assoc]

/-! ## One line -/

theorem processLine_spec {F : Type} (PF : String → F) (s s1 : LoaderState F) (l : String)
    (h : processLine PF s l = some s1) :
    s1.vertices = s.vertices ++ (positionOf PF l).toList ∧
    s1.textures = s.textures ++ (texcoordOf PF l).toList ∧
    s1.normals = s.normals ++ (normalOf PF l).toList ∧
    s1.currentMaterial = (materialOf l).getD s.currentMaterial ∧
    (positionOf PF l).isSome = hasTag "v" l ∧
    (texcoordOf PF l).isSome = hasTag "vt" l ∧
    (normalOf PF l).isSome = hasTag "vn" l ∧
    (isFace l = true → ∃ d, faceFloats s.vertices s.textures s.normals (Fields l) = some d ∧
      s1.finalData = (appendData s d).finalData) ∧
    (isFace l = false → s1.finalData = s.finalData) := by
  unfold processLine at h
  unfold positionOf texcoordOf normalOf materialOf isFace hasTag
  rcases hf : Fields l with _ | ⟨tag, args⟩
  · simp only [hf, Option.some.injEq] at h
    subst h
    simp
  · simp only [hf] at h
    by_cases h1 : tag = "mtllib"
    · subst h1
      simp only [if_true, Option.some.injEq] at h
      subst h
      rcases args with _ | ⟨a, _ | ⟨b, _ | ⟨c, r⟩⟩⟩ <;> simp
    · simp only [h1, if_false] at h
      by_cases h2 : tag = "usemtl"
      · subst h2
        simp only [if_true] at h
        rcases args with _ | ⟨a, r⟩
        · simp at h
        · simp only [Option.some.injEq] at h
          subst h
          rcases r with _ | ⟨b, _ | ⟨c, r⟩⟩ <;> simp
      · simp only [h2, if_false] at h
        by_cases h3 : tag = "v"
        · subst h3
          simp only [if_true] at h
          rcases args with _ | ⟨a, _ | ⟨b, _ | ⟨c, r⟩⟩⟩ <;> simp at h
          subst h
          simp
        · simp only [h3, if_false] at h
          by_cases h4 : tag = "vt"
          · subst h4
            simp only [if_true] at h
            rcases args with _ | ⟨a, _ | ⟨b, r⟩⟩ <;> simp at h
            subst h
            rcases r with _ | ⟨c, r⟩ <;> simp
          · simp only [h4, if_false] at h
            by_cases h5 : tag = "vn"
            · subst h5
              simp only [if_true] at h
              rcases args with _ | ⟨a, _ | ⟨b, _ | ⟨c, r⟩⟩⟩ <;> simp at h
              subst h
              simp
            · simp only [h5, if_false] at h
              by_cases h6 : tag = "f"
              · subst h6
                simp only [if_true] at h
                rw [faceLoop_eq] at h
                cases hd : faceFloats s.vertices s.textures s.normals ("f" :: args) with
                | none => simp [hd] at h
                | some d =>
                  simp only [hd, Option.map_some', Option.some.injEq] at h
                  subst h
                  rcases args with _ | ⟨a, _ | ⟨b, _ | ⟨c, r⟩⟩⟩ <;>
                    simp [appendData_vertices, appendData_textures, appendData_normals,
                      appendData_currentMaterial]
              · simp only [h6, if_false, Option.some.injEq] at h
                subst h
                rcases args with _ | ⟨a, _ | ⟨b, _ | ⟨c, r⟩⟩⟩ <;>
                  simp [h2, h3, h4, h5, h6]

/-! ## The loop, one more line at a time -/

theorem runLines_append {F : Type} (PF : String → F) (s : LoaderState F) (ls : List String)
    (l : String) :
    runLines PF s (ls ++ [l]) = (runLines PF s ls).bind fun s1 => processLine PF s1 l := by
  induction ls generalizing s with
  | nil =>
    simp only [List.nil_append, runLines, Option.some_bind]
    cases processLine PF s l <;> rfl
  | cons a rest ih =>
    simp only [List.cons_append, runLines]
    cases processLine PF s a with
    | none => rfl
    | some s1 => exact ih s1

theorem recordsFrom_append (pre ls : List String) (l : String) :
    recordsFrom pre (ls ++ [l]) = recordsFrom pre ls ++ [(pre ++ ls, l)] := by
  induction ls generalizing pre with
  | nil => simp [recordsFrom]
  | cons a rest ih => simp [recordsFrom, ih]

theorem records_append (ls : List String) (l : String) :
    records (ls ++ [l]) = records ls ++ [(ls, l)] := by
  simp [records, recordsFrom_append]

theorem currentAt_append (ls : List String) (l : String) :
    currentAt (ls ++ [l]) = (materialOf l).getD (currentAt ls) := by
  simp [currentAt, currentFrom, List.foldl_append]

theorem declared_append (tag : String) (ls : List String) (l : String) :
    declared tag (ls ++ [l]) = declared tag ls + (if hasTag tag l then 1 else 0) := by
  unfold declared
  rw [List.filter_append]
  by_cases h : hasTag tag l = true <;> simp [List.filter, h]

theorem faceCount_append (ls : List String) (l : String) :
    faceCount (ls ++ [l]) = faceCount ls + (if isFace l then 1 else 0) := by
  unfold faceCount
  rw [List.filter_append]
  by_cases h : isFace l = true <;> simp [List.filter, h]

theorem facesOf_append (k : String) (ls : List String) (l : String) :
    facesOf k (ls ++ [l]) =
      facesOf k ls ++ (if isFace l && currentAt ls == k then [(ls, l)] else []) := by
  unfold facesOf
  rw [records_append, List.filter_append]
  by_cases h : (isFace l && currentAt ls == k) = true <;> simp [List.filter, h]

theorem facesFor_append (k : String) (ls : List String) (l : String) :
    facesFor k (ls ++ [l]) =
      facesFor k ls + (if isFace l && currentAt ls == k then 1 else 0) := by
  unfold facesFor
  rw [facesOf_append]
  by_cases h : (isFace l && currentAt ls == k) = true <;> simp [h]

theorem materialData_append {F : Type} (PF : String → F) (k : String) (ls : List String)
    (l : String) :
    materialData PF k (ls ++ [l]) =
      materialData PF k ls ++
        (if isFace l && currentAt ls == k then faceData PF ls l else []) := by
  unfold materialData
  rw [facesOf_append]
  by_cases h : (isFace l && currentAt ls == k) = true <;> simp [h]

theorem wellFormed_append (ls : List String) (l : String) :
    wellFormed (ls ++ [l]) =
      (wellFormed ls && recordOk (declared "v" ls) (declared "vt" ls) (declared "vn" ls) l) := by
  simp [wellFormed, records_append, List.all_append]

theorem mem_mapSet {F : Type} (m : List (String × List F)) (k : String) (v : List F)
    (e : String × List F) (h : e ∈ mapSet m k v) : e ∈ m ∨ e = (k, v) := by
  induction m with
  | nil => simpa [mapSet] using h
  | cons e0 rest ih =>
    obtain ⟨k0, v0⟩ := e0
    by_cases hk : k0 = k
    · subst hk
      simp only [mapSet, if_true, List.mem_cons] at h
      rcases h with h | h
      · exact Or.inr h
      · exact Or.inl (List.mem_cons_of_mem _ h)
    · simp only [mapSet, hk, if_false, List.mem_cons] at h
      rcases h with h | h
      · exact Or.inl (h ▸ List.mem_cons_self _ _)
      · rcases ih h with h2 | h2
        · exact Or.inl (List.mem_cons_of_mem _ h2)
        · exact Or.inr h2

theorem inv_init {F : Type} (PF : String → F) : LoopInv PF [] (LoaderState.init F) where
  vertices := rfl
  textures := rfl
  normals := rfl
  nVertices := rfl
  nTextures := rfl
  nNormals := rfl
  current := rfl
  data := fun _ => rfl
  lengths := fun _ => rfl
  nodup := List.nodup_nil
  keys := fun k hk => by simp [LoaderState.init, mapKeys] at hk
  total := rfl
  entries := fun e he => by simp [LoaderState.init] at he

theorem inv_step {F : Type} (PF : String → F) (ls : List String) (l : String)
    (s s1 : LoaderState F) (inv : LoopInv PF ls s) (h : processLine PF s l = some s1) :
    LoopInv PF (ls ++ [l]) s1 := by
  obtain ⟨hv, ht, hn, hc, tv, tt, tn, hface, hother⟩ := processLine_spec PF s s1 l h
  have hpos : s1.vertices = (ls ++ [l]).filterMap (positionOf PF) := by
    rw [hv, inv.vertices, List.filterMap_append]
    cases hp : positionOf PF l <;> simp [List.filterMap, hp]
  have htex : s1.textures = (ls ++ [l]).filterMap (texcoordOf PF) := by
    rw [ht, inv.textures, List.filterMap_append]
    cases hp : texcoordOf PF l <;> simp [List.filterMap, hp]
  have hnor : s1.normals = (ls ++ [l]).filterMap (normalOf PF) := by
    rw [hn, inv.normals, List.filterMap_append]
    cases hp : normalOf PF l <;> simp [List.filterMap, hp]
  have hnv : s1.vertices.length = declared "v" (ls ++ [l]) := by
    rw [hv, declared_append, List.length_append, inv.nVertices, ← tv]
    cases hp : positionOf PF l <;> simp [hp]
  have hnt : s1.textures.length = declared "vt" (ls ++ [l]) := by
    rw [ht, declared_append, List.length_append, inv.nTextures, ← tt]
    cases hp : texcoordOf PF l <;> simp [hp]
  have hnn : s1.normals.length = declared "vn" (ls ++ [l]) := by
    rw [hn, declared_append, List.length_append, inv.nNormals, ← tn]
    cases hp : normalOf PF l <;> simp [hp]
  have hcur : s1.currentMaterial = currentAt (ls ++ [l]) := by
    rw [hc, currentAt_append, inv.current]
  cases hf : isFace l with
  | false =>
    have hfd := hother hf
    refine ⟨hpos, htex, hnor, hnv, hnt, hnn, hcur, ?_, ?_, ?_, ?_, ?_, ?_⟩
    · intro k
      rw [hfd, materialData_append, hf]
      simpa using inv.data k
    · intro k
      rw [hfd, facesFor_append, hf]
      simpa using inv.lengths k
    · rw [hfd]; exact inv.nodup
    · intro k hk
      rw [hfd] at hk
      rw [facesFor_append, hf]
      simpa using inv.keys k hk
    · rw [hfd, faceCount_append, hf]
      simpa using inv.total
    · rw [hfd]; exact inv.entries
  | true =>
    obtain ⟨d, hd, hfd⟩ := hface hf
    have hlen : d.length = 24 := faceFloats_length _ _ _ _ _ hd
    have hdata : faceData PF ls l = d := by
      unfold faceData
      rw [← inv.vertices, ← inv.textures, ← inv.normals, hd]
      rfl
    have hfd2 : s1.finalData =
        mapSet s.finalData (currentAt ls) (mapGet s.finalData (currentAt ls) ++ d) := by
      rw [hfd, appendData, inv.current]
    refine ⟨hpos, htex, hnor, hnv, hnt, hnn, hcur, ?_, ?_, ?_, ?_, ?_, ?_⟩
    · intro k
      rw [hfd2, materialData_append, hf, hdata]
      by_cases hk : currentAt ls = k
      · subst hk
        simp [mapGet_mapSet_same, inv.data]
      · have hk2 : k ≠ currentAt ls := fun e => hk e.symm
        simp [mapGet_mapSet_other _ _ _ _ hk2, inv.data, hk]
    · intro k
      rw [hfd2, facesFor_append, hf]
      by_cases hk : currentAt ls = k
      · subst hk
        simp [mapGet_mapSet_same, inv.lengths, hlen]
        omega
      · have hk2 : k ≠ currentAt ls := fun e => hk e.symm
        simp [mapGet_mapSet_other _ _ _ _ hk2, inv.lengths, hk]
    · rw [hfd2, mapKeys_mapSet]
      by_cases hm : currentAt ls ∈ mapKeys s.finalData
      · simp only [hm, if_true]; exact inv.nodup
      · simp only [hm, if_false]
        rw [List.nodup_append]
        refine ⟨inv.nodup, List.nodup_singleton _, ?_⟩
        intro a ha hb
        simp only [List.mem_singleton] at hb
        subst hb
        exact hm ha
    · intro k hk
      rw [hfd2, mapKeys_mapSet] at hk
      rw [facesFor_append, hf]
      by_cases hm : currentAt ls ∈ mapKeys s.finalData
      · simp only [hm, if_true] at hk
        have := inv.keys k hk
        omega
      · simp only [hm, if_false, List.mem_append, List.mem_singleton] at hk
        rcases hk with hk | hk
        · have := inv.keys k hk
          omega
        · subst hk
          simp
    · rw [hfd2, faceCount_append, hf]
      have h1 := totalLength_mapSet s.finalData (currentAt ls)
        (mapGet s.finalData (currentAt ls) ++ d)
      have h2 := inv.total
      simp only [List.length_append, hlen] at h1
      simp only [if_true]
      omega
    · intro e he
      rw [hfd2] at he
      rcases mem_mapSet _ _ _ _ he with he | he
      · exact inv.entries e he
      · subst he
        have h1 := inv.lengths (currentAt ls)
        simp only [List.length_append, hlen, h1]
        omega

theorem inv_run {F : Type} (PF : String → F) (lines : List String) (s : LoaderState F)
    (h : runLines PF (LoaderState.init F) lines = some s) : LoopInv PF lines s := by
  induction lines using List.reverseRecOn generalizing s with
  | nil =>
    simp only [runLines, Option.some.injEq] at h
    subst h
    exact inv_init PF
  | append_singleton ls l ih =>
    rw [runLines_append] at h
    cases hr : runLines PF (LoaderState.init F) ls with
    | none => simp [hr] at h
    | some s0 =>
      simp only [hr, Option.some_bind] at h
      exact inv_step PF ls l s0 s (ih s0 hr) h

/-! ## Well-formed records are processed without a panic -/

theorem index_ok {α : Type} (xs : List α) (i : Int) (h1 : 1 ≤ i) (h2 : i ≤ xs.length) :
    ∃ v, index xs (i - 1) = some v := by
  have h0 : 0 ≤ i - 1 := by omega
  have hlt : (i - 1).toNat < xs.length := by omega
  refine ⟨xs.get ⟨(i - 1).toNat, hlt⟩, ?_⟩
  simp only [index, h0, if_true]
  exact List.get?_eq_get hlt

theorem cornerFloats_ok {F : Type} (pos : List (F × F × F)) (tex : List (F × F))
    (nor : List (F × F × F)) (c : String)
    (h : cornerOk pos.length tex.length nor.length c = true) :
    ∃ d, cornerFloats pos tex nor c = some d := by
  unfold cornerOk at h
  unfold cornerFloats
  generalize Split c '/' = sp at h
  match sp, h with
  | ps :: ts :: ns :: _, h =>
    simp only [Bool.and_eq_true, decide_eq_true_eq] at h
    obtain ⟨⟨⟨⟨⟨a1, a2⟩, b1⟩, b2⟩, c1⟩, c2⟩ := h
    obtain ⟨v, hv⟩ := index_ok pos (Atoi ps) a1 a2
    obtain ⟨vt, hvt⟩ := index_ok tex (Atoi ts) b1 b2
    obtain ⟨vn, hvn⟩ := index_ok nor (Atoi ns) c1 c2
    exact ⟨[v.1, v.2.1, v.2.2, vn.1, vn.2.1, vn.2.2, vt.1, vt.2],
      by simp only [vertexFloats, hv, hvt, hvn]⟩

theorem processLine_ok {F : Type} (PF : String → F) (s : LoaderState F) (l : String)
    (h : recordOk s.vertices.length s.textures.length s.normals.length l = true) :
    ∃ s1, processLine PF s l = some s1 := by
  unfold recordOk at h
  unfold processLine
  rcases hf : Fields l with _ | ⟨tag, args⟩
  · exact ⟨s, rfl⟩
  · simp only [hf] at h
    simp only []
    by_cases h1 : tag = "mtllib"
    · exact ⟨s, by simp [h1]⟩
    · simp only [h1, if_false]
      by_cases h2 : tag = "usemtl"
      · simp only [h2, if_true, decide_eq_true_eq] at h ⊢
        rcases args with _ | ⟨a, r⟩
        · simp at h
        · exact ⟨_, rfl⟩
      · simp only [h2, if_false] at h ⊢
        by_cases h3 : tag = "v"
        · simp only [h3, if_true, decide_eq_true_eq] at h ⊢
          rcases args with _ | ⟨a, _ | ⟨b, _ | ⟨c, r⟩⟩⟩ <;> simp at h
          exact ⟨_, rfl⟩
        · simp only [h3, if_false] at h ⊢
          by_cases h4 : tag = "vt"
          · simp only [h4, if_true, decide_eq_true_eq] at h ⊢
            rcases args with _ | ⟨a, _ | ⟨b, r⟩⟩ <;> simp at h
            exact ⟨_, rfl⟩
          · simp only [h4, if_false] at h ⊢
            by_cases h5 : tag = "vn"
            · simp only [h5, if_true, decide_eq_true_eq] at h ⊢
              rcases args with _ | ⟨a, _ | ⟨b, _ | ⟨c, r⟩⟩⟩ <;> simp at h
              exact ⟨_, rfl⟩
            · simp only [h5, if_false] at h ⊢
              by_cases h6 : tag = "f"
              · simp only [h6, if_true] at h ⊢
                rw [faceLoop_eq]
                rcases args with _ | ⟨a, _ | ⟨b, _ | ⟨c, r⟩⟩⟩ <;> simp at h
                obtain ⟨⟨ha, hb⟩, hc⟩ := h
                obtain ⟨d1, e1⟩ := cornerFloats_ok s.vertices s.textures s.normals a ha
                obtain ⟨d2, e2⟩ := cornerFloats_ok s.vertices s.textures s.normals b hb
                obtain ⟨d3, e3⟩ := cornerFloats_ok s.vertices s.textures s.normals c hc
                exact ⟨appendData s (d1 ++ d2 ++ d3),
                  by simp only [faceFloats, e1, e2, e3, Option.map_some']⟩
              · exact ⟨s, by simp [h6]⟩

theorem run_ok {F : Type} (PF : String → F) (lines : List String)
    (h : wellFormed lines = true) : ∃ s, runLines PF (LoaderState.init F) lines = some s := by
  induction lines using List.reverseRecOn with
  | nil => exact ⟨_, rfl⟩
  | append_singleton ls l ih =>
    rw [wellFormed_append, Bool.and_eq_true] at h
    obtain ⟨s, hs⟩ := ih h.1
    have inv := inv_run PF ls s hs
    have hrec := h.2
    rw [← inv.nVertices, ← inv.nTextures, ← inv.nNormals] at hrec
    obtain ⟨s1, h1⟩ := processLine_ok PF s l hrec
    exact ⟨s1, by rw [runLines_append, hs]; exact h1⟩

/-! ## Resources without a material switch -/

/-- C1, as stated, fails: in the resource below every face corner references
indices that are at most the counts of the positions, texture coordinates and
normals declared before it (the first corner gives position index `0`), and
`LoadObj` panics on `vertices[0-1]` instead of returning a map. -/
theorem LoadObj_panics_on_index_zero :
    indicesWithinCounts
      (sourceLines "v 0 0 0\nvt 0 0\nvn 0 0 1\nf 0/1/1 1/1/1 1/1/1\n") = true ∧
    LoadObj (fun t => t) "v 0 0 0\nvt 0 0\nvn 0 0 1\nf 0/1/1 1/1/1 1/1/1\n" = none := by
  decide

/-- C1, amended: for every resource in which every record that the scanner
loop reads is well formed (`wellFormed`: in particular every index `i` of the
first three corners of a face record satisfies `1 ≤ i ≤` the count of
previously declared positions, texture coordinates or normals), `LoadObj`
returns a map in which, for each material key, the buffer length is exactly
`3 * (number of face records seen while that material was current) * 8`. -/
theorem LoadObj_buffer_lengths {F : Type} (PF : String → F) (content : String)
    (h : wellFormed (scanLines content) = true) :
    ∃ m, LoadObj PF content = some m ∧
      ∀ k, (mapGet m k).length = 3 * facesFor k (scanLines content) * 8 := by
  obtain ⟨s, hs⟩ := run_ok PF (scanLines content) h
  refine ⟨s.finalData, by simp [LoadObj, hs], fun k => ?_⟩
  rw [(inv_run PF (scanLines content) s hs).lengths k]
  omega

/-- Witness of C1 (amended) on a resource with two materials. -/
theorem LoadObj_buffer_lengths_witness :
    wellFormed (scanLines ("v 0 0 0\nv 1 0 0\nvt 0 0\nvn 0 0 1\nf 1/1/1 2/1/1 1/1/1\n" ++
        "usemtl wood\nf 2/1/1 2/1/1 1/1/1\nf 1/1/1 1/1/1 2/1/1\n")) = true ∧
    ∃ m, LoadObj (fun t => t) ("v 0 0 0\nv 1 0 0\nvt 0 0\nvn 0 0 1\nf 1/1/1 2/1/1 1/1/1\n" ++
        "usemtl wood\nf 2/1/1 2/1/1 1/1/1\nf 1/1/1 1/1/1 2/1/1\n") = some m ∧
      ∀ k, (mapGet m k).length =
        3 * facesFor k (scanLines ("v 0 0 0\nv 1 0 0\nvt 0 0\nvn 0 0 1\nf 1/1/1 2/1/1 1/1/1\n" ++
          "usemtl wood\nf 2/1/1 2/1/1 1/1/1\nf 1/1/1 1/1/1 2/1/1\n")) * 8 :=
  ⟨by decide, LoadObj_buffer_lengths (fun t => t) _ (by decide)⟩

/-- C2: a face record whose first three corners are of the form `p/t/n` with
`1 ≤ p ≤ #positions`, `1 ≤ t ≤ #texcoords`, `1 ≤ n ≤ #normals` is processed
without a panic; the buffer of the current material is extended by exactly 24
floats, namely for each corner in order `positions[p-1]`, `normals[n-1]`,
`texcoords[t-1]` (8 floats, `cornerFloats`); the buffers of all other
materials and the rest of the state are unchanged. -/
theorem processLine_face_appends {F : Type} (PF : String → F) (s : LoaderState F)
    (line c1 c2 c3 : String) (more : List String)
    (hline : Fields line = "f" :: c1 :: c2 :: c3 :: more)
    (h1 : cornerOk s.vertices.length s.textures.length s.normals.length c1 = true)
    (h2 : cornerOk s.vertices.length s.textures.length s.normals.length c2 = true)
    (h3 : cornerOk s.vertices.length s.textures.length s.normals.length c3 = true) :
    ∃ d1 d2 d3,
      cornerFloats s.vertices s.textures s.normals c1 = some d1 ∧
      cornerFloats s.vertices s.textures s.normals c2 = some d2 ∧
      cornerFloats s.vertices s.textures s.normals c3 = some d3 ∧
      d1.length = 8 ∧ d2.length = 8 ∧ d3.length = 8 ∧
      processLine PF s line = some (appendData s (d1 ++ d2 ++ d3)) ∧
      mapGet (appendData s (d1 ++ d2 ++ d3)).finalData s.currentMaterial =
        mapGet s.finalData s.currentMaterial ++ (d1 ++ d2 ++ d3) ∧
      (d1 ++ d2 ++ d3).length = 24 ∧
      ∀ k, k ≠ s.currentMaterial →
        mapGet (appendData s (d1 ++ d2 ++ d3)).finalData k = mapGet s.finalData k := by
  obtain ⟨d1, e1⟩ := cornerFloats_ok s.vertices s.textures s.normals c1 h1
  obtain ⟨d2, e2⟩ := cornerFloats_ok s.vertices s.textures s.normals c2 h2
  obtain ⟨d3, e3⟩ := cornerFloats_ok s.vertices s.textures s.normals c3 h3
  have l1 := cornerFloats_length _ _ _ _ _ e1
  have l2 := cornerFloats_length _ _ _ _ _ e2
  have l3 := cornerFloats_length _ _ _ _ _ e3
  refine ⟨d1, d2, d3, e1, e2, e3, l1, l2, l3, ?_, ?_, ?_, ?_⟩
  · unfold processLine
    simp only [hline]
    have t1 : ¬ ("f" = "mtllib") := by decide
    have t2 : ¬ ("f" = "usemtl") := by decide
    have t3 : ¬ ("f" = "v") := by decide
    have t4 : ¬ ("f" = "vt") := by decide
    have t5 : ¬ ("f" = "vn") := by decide
    simp only [t1, t2, t3, t4, t5, if_false, if_true]
    rw [faceLoop_eq]
    simp only [faceFloats, e1, e2, e3, Option.map_some']
  · simp only [appendData, mapGet_mapSet_same]
  · simp only [List.length_append, l1, l2, l3]
  · intro k hk
    simp only [appendData]
    exact mapGet_mapSet_other _ _ _ _ hk

/-- Witness of C2: a face record read with two positions, one texture
coordinate and one normal declared, while material `wood` is current and
`default` already holds data. -/
theorem processLine_face_appends_witness :
    ∃ d1 d2 d3,
      cornerFloats [("x1", "y1", "z1"), ("x2", "y2", "z2")] [("u1", "v1")] [("a1", "b1", "c1")]
        "2/1/1" = some d1 ∧
      cornerFloats [("x1", "y1", "z1"), ("x2", "y2", "z2")] [("u1", "v1")] [("a1", "b1", "c1")]
        "1/1/1" = some d2 ∧
      cornerFloats [("x1", "y1", "z1"), ("x2", "y2", "z2")] [("u1", "v1")] [("a1", "b1", "c1")]
        "2/1/1" = some d3 ∧
      d1.length = 8 ∧ d2.length = 8 ∧ d3.length = 8 ∧
      processLine (fun t => t)
        { vertices := [("x1", "y1", "z1"), ("x2", "y2", "z2")], textures := [("u1", "v1")],
          normals := [("a1", "b1", "c1")], finalData := [("default", ["q"])],
          currentMaterial := "wood" } "f 2/1/1 1/1/1 2/1/1" =
        some (appendData
          { vertices := [("x1", "y1", "z1"), ("x2", "y2", "z2")], textures := [("u1", "v1")],
            normals := [("a1", "b1", "c1")], finalData := [("default", ["q"])],
            currentMaterial := "wood" } (d1 ++ d2 ++ d3)) ∧
      mapGet (appendData
          { vertices := [("x1", "y1", "z1"), ("x2", "y2", "z2")], textures := [("u1", "v1")],
            normals := [("a1", "b1", "c1")], finalData := [("default", ["q"])],
            currentMaterial := "wood" } (d1 ++ d2 ++ d3)).finalData "wood" =
        mapGet [("default", ["q"])] "wood" ++ (d1 ++ d2 ++ d3) ∧
      (d1 ++ d2 ++ d3).length = 24 ∧
      ∀ k, k ≠ "wood" →
        mapGet (appendData
          { vertices := [("x1", "y1", "z1"), ("x2", "y2", "z2")], textures := [("u1", "v1")],
            normals := [("a1", "b1", "c1")], finalData := [("default", ["q"])],
            currentMaterial := "wood" } (d1 ++ d2 ++ d3)).finalData k =
          mapGet [("default", ["q"])] k :=
  processLine_face_appends (fun t => t)
    { vertices := [("x1", "y1", "z1"), ("x2", "y2", "z2")], textures := [("u1", "v1")],
      normals := [("a1", "b1", "c1")], finalData := [("default", ["q"])],
      currentMaterial := "wood" }
    "f 2/1/1 1/1/1 2/1/1" "2/1/1" "1/1/1" "2/1/1" [] (by decide) (by decide) (by decide)
    (by decide)

end loaders

namespace camera

/-! ## Fields that `updateVectors` keeps -/

theorem updateVectors_Pitch {K : Type} [Field K] (M : MathFns K) (c : Camera K) :
    (updateVectors M c).Pitch = c.Pitch := rfl

theorem updateVectors_Yaw {K : Type} [Field K] (M : MathFns K) (c : Camera K) :
    (updateVectors M c).Yaw = c.Yaw := rfl

theorem updateVectors_WorldUp {K : Type} [Field K] (M : MathFns K) (c : Camera K) :
    (updateVectors M c).WorldUp = c.WorldUp := rfl

/-! ## Pitch clamp -/

theorem HandleMouse_Pitch_range {K : Type} [LinearOrderedField K] (M : MathFns K)
    (c : Camera K) (w : Window K) (h : -89 ≤ c.Pitch ∧ c.Pitch ≤ 89) :
    -89 ≤ (HandleMouse M c w).1.Pitch ∧ (HandleMouse M c w).1.Pitch ≤ 89 := by
  unfold HandleMouse
  cases hb : w.MouseButtonRight <;> cases hl : c.CursorLocked
  · simpa using h
  · simpa using h
  · simpa using h
  · by_cases hj : |w.cursorX - c.LastX| > 100 ∨ |c.LastY - w.cursorY| > 100
    · simp only [hj, if_true, Bool.not_true, Bool.false_eq_true, if_false]
      exact h
    · simp only [hj, if_true, Bool.not_true, Bool.false_eq_true, if_false,
        updateVectors_Pitch]
      by_cases h1 : c.Pitch + (c.LastY - w.cursorY) * c.Sensitivity > 89
      · have h2 : ¬ ((89 : K) < -89) := by norm_num
        simp only [h1, if_true, h2, if_false]
        constructor <;> norm_num
      · simp only [h1, if_false]
        by_cases h3 : c.Pitch + (c.LastY - w.cursorY) * c.Sensitivity < -89
        · simp only [h3, if_true]
          constructor <;> norm_num
        · simp only [h3, if_false]
          exact ⟨not_lt.mp h3, not_lt.mp h1⟩

theorem New_Pitch {K : Type} [Field K] (M : MathFns K) (position : Vec3 K) :
    (New M position).Pitch = 0 := rfl

theorem mouseCalls_Pitch_range {K : Type} [LinearOrderedField K] (M : MathFns K)
    (c : Camera K) (ws : List (Window K)) (h : -89 ≤ c.Pitch ∧ c.Pitch ≤ 89) :
    -89 ≤ (mouseCalls M c ws).Pitch ∧ (mouseCalls M c ws).Pitch ≤ 89 := by
  induction ws generalizing c with
  | nil => exact h
  | cons w rest ih =>
    simp only [mouseCalls, List.foldl_cons]
    exact ih _ (HandleMouse_Pitch_range M c w h)

/-- C4 (pitch clamp): starting from a camera built by `New`, after every
finite sequence of `HandleMouse` calls, with arbitrary button states and
cursor positions, `-89 ≤ Pitch ≤ 89`. -/
theorem Pitch_clamped {K : Type} [LinearOrderedField K] (M : MathFns K) (position : Vec3 K)
    (windows : List (Window K)) :
    -89 ≤ (mouseCalls M (New M position) windows).Pitch ∧
      (mouseCalls M (New M position) windows).Pitch ≤ 89 := by
  apply mouseCalls_Pitch_range
  rw [New_Pitch]
  constructor <;> norm_num

/-! ## Jump rejection and first-lock suppression -/

/-- C5 (jump rejection): when the cursor is locked and the look button is held,
a cursor sample with `|cur_x - LastX| > 100` or `|LastY - cur_y| > 100` leaves
`Yaw`, `Pitch`, `Front`, `Right` and `Up` at their values before the call. -/
theorem HandleMouse_jump_rejected {K : Type} [LinearOrderedField K] (M : MathFns K)
    (c : Camera K) (w : Window K) (hlocked : c.CursorLocked = true)
    (hheld : w.MouseButtonRight = true)
    (hjump : |w.cursorX - c.LastX| > 100 ∨ |c.LastY - w.cursorY| > 100) :
    (HandleMouse M c w).1.Yaw = c.Yaw ∧ (HandleMouse M c w).1.Pitch = c.Pitch ∧
    (HandleMouse M c w).1.Front = c.Front ∧ (HandleMouse M c w).1.Right = c.Right ∧
    (HandleMouse M c w).1.Up = c.Up := by
  unfold HandleMouse
  simp only [hheld, hlocked, hjump, if_true, Bool.not_true, Bool.false_eq_true, if_false,
    and_self]

/-- C6 (first-lock suppression): when the cursor is not locked and the look
button is pressed, `HandleMouse` changes only `LastX`/`LastY`, which become the
current cursor position, and `CursorLocked`, which becomes true; `Yaw`,
`Pitch`, `Position`, `Front`, `Right`, `Up` and all other fields are kept. -/
theorem HandleMouse_first_lock {K : Type} [LinearOrderedField K] (M : MathFns K)
    (c : Camera K) (w : Window K) (hunlocked : c.CursorLocked = false)
    (hheld : w.MouseButtonRight = true) :
    (HandleMouse M c w).1 =
      { c with CursorLocked := true, LastX := w.cursorX, LastY := w.cursorY } := by
  unfold HandleMouse
  simp only [hheld, hunlocked, if_true, Bool.not_false]

/-! ## Keyboard translation -/

/-- C9: `HandleKeyboard` changes `Position` only, and the new position is the
old one plus `velocity = Speed * deltaTime` times `Front` for W and minus it
for S, plus it times `Right` for D and minus for A, plus it times `WorldUp`
for Space and minus for LeftShift, the contributions of the pressed keys being
added up without normalisation. -/
theorem HandleKeyboard_translates {K : Type} [Field K] (c : Camera K) (w : Window K)
    (deltaTime : K) :
    HandleKeyboard c w deltaTime =
      { c with
        Position := c.Position.Add
          (((c.Front.Mul (c.Speed * deltaTime * (pressed w.KeyW - pressed w.KeyS))).Add
            (c.Right.Mul (c.Speed * deltaTime * (pressed w.KeyD - pressed w.KeyA)))).Add
            (c.WorldUp.Mul
              (c.Speed * deltaTime * (pressed w.KeySpace - pressed w.KeyLeftShift)))) } := by
  obtain ⟨kw, ks, ka, kd, ksp, ksh, mb, cx, cy, cm⟩ := w
  unfold HandleKeyboard
  cases kw <;> cases ks <;> cases ka <;> cases kd <;> cases ksp <;> cases ksh <;>
    simp [pressed, Vec3.Add, Vec3.Sub, Vec3.Mul] <;>
    (try refine ⟨?_, ?_, ?_⟩) <;> ring

/-! ## The basis over the real numbers -/

theorem Normalize_front (a b : ℝ) :
    Vec3.Normalize (MathFns.mk Real.cos Real.sin Real.sqrt Real.pi)
        ⟨Real.cos a * Real.cos b, Real.sin b, Real.sin a * Real.cos b⟩ =
      ⟨Real.cos a * Real.cos b, Real.sin b, Real.sin a * Real.cos b⟩ := by
  have ha := Real.sin_sq_add_cos_sq a
  have hb := Real.sin_sq_add_cos_sq b
  have h1 : Real.cos a * Real.cos b * (Real.cos a * Real.cos b) + Real.sin b * Real.sin b +
      Real.sin a * Real.cos b * (Real.sin a * Real.cos b) = 1 := by
    linear_combination (Real.cos b) ^ 2 * ha + hb
  simp only [Vec3.Normalize, Vec3.Len, h1, Real.sqrt_one, div_one, mul_one]

theorem Normalize_right (a b : ℝ) (hb : 0 < Real.cos b) :
    Vec3.Normalize (MathFns.mk Real.cos Real.sin Real.sqrt Real.pi)
        (Vec3.Cross ⟨Real.cos a * Real.cos b, Real.sin b, Real.sin a * Real.cos b⟩
          ⟨0, 1, 0⟩) =
      ⟨-Real.sin a, 0, Real.cos a⟩ := by
  have ha := Real.sin_sq_add_cos_sq a
  have h1 : (Real.sin b * 0 - Real.sin a * Real.cos b * 1) *
        (Real.sin b * 0 - Real.sin a * Real.cos b * 1) +
      (Real.sin a * Real.cos b * 0 - Real.cos a * Real.cos b * 0) *
        (Real.sin a * Real.cos b * 0 - Real.cos a * Real.cos b * 0) +
      (Real.cos a * Real.cos b * 1 - Real.sin b * 0) *
        (Real.cos a * Real.cos b * 1 - Real.sin b * 0) = Real.cos b * Real.cos b := by
    linear_combination (Real.cos b) ^ 2 * ha
  have h2 : Real.cos b ≠ 0 := ne_of_gt hb
  simp only [Vec3.Normalize, Vec3.Len, Vec3.Cross, h1, Real.sqrt_mul_self (le_of_lt hb)]
  refine Vec3.ext ?_ ?_ ?_
  · show (Real.sin b * 0 - Real.sin a * Real.cos b * 1) * (1 / Real.cos b) = -Real.sin a
    field_simp
  · show (Real.sin a * Real.cos b * 0 - Real.cos a * Real.cos b * 0) * (1 / Real.cos b) = 0
    simp
  · show (Real.cos a * Real.cos b * 1 - Real.sin b * 0) * (1 / Real.cos b) = Real.cos a
    field_simp

theorem Normalize_up (a b : ℝ) :
    Vec3.Normalize (MathFns.mk Real.cos Real.sin Real.sqrt Real.pi)
        (Vec3.Cross ⟨-Real.sin a, 0, Real.cos a⟩
          ⟨Real.cos a * Real.cos b, Real.sin b, Real.sin a * Real.cos b⟩) =
      ⟨-(Real.cos a * Real.sin b), Real.cos b, -(Real.sin a * Real.sin b)⟩ := by
  have ha := Real.sin_sq_add_cos_sq a
  have hb := Real.sin_sq_add_cos_sq b
  have h1 : (0 * (Real.sin a * Real.cos b) - Real.cos a * Real.sin b) *
        (0 * (Real.sin a * Real.cos b) - Real.cos a * Real.sin b) +
      (Real.cos a * (Real.cos a * Real.cos b) - -Real.sin a * (Real.sin a * Real.cos b)) *
        (Real.cos a * (Real.cos a * Real.cos b) - -Real.sin a * (Real.sin a * Real.cos b)) +
      (-Real.sin a * Real.sin b - 0 * (Real.cos a * Real.cos b)) *
        (-Real.sin a * Real.sin b - 0 * (Real.cos a * Real.cos b)) = 1 := by
    linear_combination
      ((Real.sin b) ^ 2 + (Real.cos b) ^ 2 * ((Real.sin a) ^ 2 + (Real.cos a) ^ 2 + 1)) * ha + hb
  simp only [Vec3.Normalize, Vec3.Len, Vec3.Cross, h1, Real.sqrt_one, div_one, mul_one]
  refine Vec3.ext ?_ ?_ ?_
  · show 0 * (Real.sin a * Real.cos b) - Real.cos a * Real.sin b = -(Real.cos a * Real.sin b)
    ring
  · show Real.cos a * (Real.cos a * Real.cos b) - -Real.sin a * (Real.sin a * Real.cos b) =
      Real.cos b
    linear_combination Real.cos b * ha
  · show -Real.sin a * Real.sin b - 0 * (Real.cos a * Real.cos b) = -(Real.sin a * Real.sin b)
    ring

theorem cos_degToRad_pos (p : ℝ) (h : -89 ≤ p ∧ p ≤ 89) :
    0 < Real.cos (degToRad (MathFns.mk Real.cos Real.sin Real.sqrt Real.pi) p) := by
  have hpi := Real.pi_pos
  apply Real.cos_pos_of_mem_Ioo
  simp only [degToRad]
  constructor
  · nlinarith [h.1]
  · nlinarith [h.2]

theorem updateVectors_basis (c : Camera ℝ) (hw : c.WorldUp = ⟨0, 1, 0⟩)
    (hp : -89 ≤ c.Pitch ∧ c.Pitch ≤ 89) :
    (updateVectors (MathFns.mk Real.cos Real.sin Real.sqrt Real.pi) c).Front =
      ⟨Real.cos (c.Yaw * (Real.pi / 180)) * Real.cos (c.Pitch * (Real.pi / 180)),
       Real.sin (c.Pitch * (Real.pi / 180)),
       Real.sin (c.Yaw * (Real.pi / 180)) * Real.cos (c.Pitch * (Real.pi / 180))⟩ ∧
    (updateVectors (MathFns.mk Real.cos Real.sin Real.sqrt Real.pi) c).Right =
      ⟨-Real.sin (c.Yaw * (Real.pi / 180)), 0, Real.cos (c.Yaw * (Real.pi / 180))⟩ ∧
    (updateVectors (MathFns.mk Real.cos Real.sin Real.sqrt Real.pi) c).Up =
      ⟨-(Real.cos (c.Yaw * (Real.pi / 180)) * Real.sin (c.Pitch * (Real.pi / 180))),
       Real.cos (c.Pitch * (Real.pi / 180)),
       -(Real.sin (c.Yaw * (Real.pi / 180)) * Real.sin (c.Pitch * (Real.pi / 180)))⟩ := by
  have hpos : 0 < Real.cos (c.Pitch * (Real.pi / 180)) := cos_degToRad_pos c.Pitch hp
  have hF := Normalize_front (c.Yaw * (Real.pi / 180)) (c.Pitch * (Real.pi / 180))
  have hR := Normalize_right (c.Yaw * (Real.pi / 180)) (c.Pitch * (Real.pi / 180)) hpos
  have hU := Normalize_up (c.Yaw * (Real.pi / 180)) (c.Pitch * (Real.pi / 180))
  simp only [updateVectors, degToRad, hw, hF, hR, hU, and_self]

theorem updateVectors_orthonormal (c : Camera ℝ) (hw : c.WorldUp = ⟨0, 1, 0⟩)
    (hp : -89 ≤ c.Pitch ∧ c.Pitch ≤ 89) :
    Orthonormal (MathFns.mk Real.cos Real.sin Real.sqrt Real.pi)
      (updateVectors (MathFns.mk Real.cos Real.sin Real.sqrt Real.pi) c).Front
      (updateVectors (MathFns.mk Real.cos Real.sin Real.sqrt Real.pi) c).Right
      (updateVectors (MathFns.mk Real.cos Real.sin Real.sqrt Real.pi) c).Up := by
  obtain ⟨hF, hR, hU⟩ := updateVectors_basis c hw hp
  rw [hF, hR, hU]
  have ha := Real.sin_sq_add_cos_sq (c.Yaw * (Real.pi / 180))
  have hb := Real.sin_sq_add_cos_sq (c.Pitch * (Real.pi / 180))
  generalize Real.cos (c.Yaw * (Real.pi / 180)) = ca at ha ⊢
  generalize Real.sin (c.Yaw * (Real.pi / 180)) = sa at ha ⊢
  generalize Real.cos (c.Pitch * (Real.pi / 180)) = cb at hb ⊢
  generalize Real.sin (c.Pitch * (Real.pi / 180)) = sb at hb ⊢
  have e1 : ca * cb * (ca * cb) + sb * sb + sa * cb * (sa * cb) = 1 := by
    linear_combination cb ^ 2 * ha + hb
  have e2 : -sa * -sa + 0 * 0 + ca * ca = (1 : ℝ) := by linear_combination ha
  have e3 : -(ca * sb) * -(ca * sb) + cb * cb + -(sa * sb) * -(sa * sb) = 1 := by
    linear_combination sb ^ 2 * ha + hb
  refine ⟨?_, ?_, ?_, ?_, ?_, ?_⟩
  · show ca * cb * -sa + sb * 0 + sa * cb * ca = 0
    ring
  · show ca * cb * -(ca * sb) + sb * cb + sa * cb * -(sa * sb) = 0
    linear_combination (-(cb * sb)) * ha
  · show -sa * -(ca * sb) + 0 * cb + ca * -(sa * sb) = 0
    ring
  · show Real.sqrt (ca * cb * (ca * cb) + sb * sb + sa * cb * (sa * cb)) = 1
    rw [e1, Real.sqrt_one]
  · show Real.sqrt (-sa * -sa + 0 * 0 + ca * ca) = 1
    rw [e2, Real.sqrt_one]
  · show Real.sqrt (-(ca * sb) * -(ca * sb) + cb * cb + -(sa * sb) * -(sa * sb)) = 1
    rw [e3, Real.sqrt_one]

theorem HandleMouse_rotation {K : Type} [LinearOrderedField K] (M : MathFns K)
    (c : Camera K) (w : Window K) (hlocked : c.CursorLocked = true)
    (hheld : w.MouseButtonRight = true)
    (hsmall : ¬ (|w.cursorX - c.LastX| > 100 ∨ |c.LastY - w.cursorY| > 100)) :
    ∃ c5 : Camera K, (HandleMouse M c w).1 = updateVectors M c5 ∧
      c5.WorldUp = c.WorldUp ∧ -89 ≤ c5.Pitch ∧ c5.Pitch ≤ 89 := by
  unfold HandleMouse
  simp only [hheld, hlocked, hsmall, if_true, Bool.not_true, Bool.false_eq_true, if_false]
  refine ⟨_, rfl, ?_, ?_⟩
  · by_cases h1 : c.Pitch + (c.LastY - w.cursorY) * c.Sensitivity > 89
    · have h2 : ¬ ((89 : K) < -89) := by norm_num
      simp only [h1, if_true, h2, if_false]
    · by_cases h3 : c.Pitch + (c.LastY - w.cursorY) * c.Sensitivity < -89
      · simp only [h1, if_false, h3, if_true]
      · simp only [h1, if_false, h3]
  · by_cases h1 : c.Pitch + (c.LastY - w.cursorY) * c.Sensitivity > 89
    · have h2 : ¬ ((89 : K) < -89) := by norm_num
      simp only [h1, if_true, h2, if_false]
      constructor <;> norm_num
    · by_cases h3 : c.Pitch + (c.LastY - w.cursorY) * c.Sensitivity < -89
      · simp only [h1, if_false, h3, if_true]
        constructor <;> norm_num
      · simp only [h1, if_false, h3]
        exact ⟨not_lt.mp h3, not_lt.mp h1⟩

theorem HandleMouse_rotation_basis (c : Camera ℝ) (w : Window ℝ)
    (hup : c.WorldUp = ⟨0, 1, 0⟩) (hlocked : c.CursorLocked = true)
    (hheld : w.MouseButtonRight = true)
    (hsmall : ¬ (|w.cursorX - c.LastX| > 100 ∨ |c.LastY - w.cursorY| > 100)) :
    (HandleMouse (MathFns.mk Real.cos Real.sin Real.sqrt Real.pi) c w).1.WorldUp = ⟨0, 1, 0⟩ ∧
      Orthonormal (MathFns.mk Real.cos Real.sin Real.sqrt Real.pi)
        (HandleMouse (MathFns.mk Real.cos Real.sin Real.sqrt Real.pi) c w).1.Front
        (HandleMouse (MathFns.mk Real.cos Real.sin Real.sqrt Real.pi) c w).1.Right
        (HandleMouse (MathFns.mk Real.cos Real.sin Real.sqrt Real.pi) c w).1.Up := by
  obtain ⟨c5, h5, hw5, hp5⟩ := HandleMouse_rotation
    (MathFns.mk Real.cos Real.sin Real.sqrt Real.pi) c w hlocked hheld hsmall
  rw [h5]
  exact ⟨by rw [updateVectors_WorldUp, hw5, hup],
    updateVectors_orthonormal c5 (by rw [hw5, hup]) hp5⟩

theorem HandleMouse_keeps_basis (c : Camera ℝ) (w : Window ℝ)
    (h : c.WorldUp = ⟨0, 1, 0⟩ ∧
      Orthonormal (MathFns.mk Real.cos Real.sin Real.sqrt Real.pi) c.Front c.Right c.Up) :
    (HandleMouse (MathFns.mk Real.cos Real.sin Real.sqrt Real.pi) c w).1.WorldUp = ⟨0, 1, 0⟩ ∧
      Orthonormal (MathFns.mk Real.cos Real.sin Real.sqrt Real.pi)
        (HandleMouse (MathFns.mk Real.cos Real.sin Real.sqrt Real.pi) c w).1.Front
        (HandleMouse (MathFns.mk Real.cos Real.sin Real.sqrt Real.pi) c w).1.Right
        (HandleMouse (MathFns.mk Real.cos Real.sin Real.sqrt Real.pi) c w).1.Up := by
  cases hb : w.MouseButtonRight <;> cases hl : c.CursorLocked
  · unfold HandleMouse
    simpa [hb, hl] using h
  · unfold HandleMouse
    simpa [hb, hl] using h
  · unfold HandleMouse
    simpa [hb, hl] using h
  · by_cases hj : |w.cursorX - c.LastX| > 100 ∨ |c.LastY - w.cursorY| > 100
    · unfold HandleMouse
      simp only [hb, hl, hj, if_true, Bool.not_true, Bool.false_eq_true, if_false]
      exact h
    · exact HandleMouse_rotation_basis c w h.1 hl hb hj

theorem New_basis (position : Vec3 ℝ) :
    (New (MathFns.mk Real.cos Real.sin Real.sqrt Real.pi) position).WorldUp = ⟨0, 1, 0⟩ ∧
      Orthonormal (MathFns.mk Real.cos Real.sin Real.sqrt Real.pi)
        (New (MathFns.mk Real.cos Real.sin Real.sqrt Real.pi) position).Front
        (New (MathFns.mk Real.cos Real.sin Real.sqrt Real.pi) position).Right
        (New (MathFns.mk Real.cos Real.sin Real.sqrt Real.pi) position).Up := by
  refine ⟨rfl, ?_⟩
  unfold New
  apply updateVectors_orthonormal
  · rfl
  · show (-89 : ℝ) ≤ 0 ∧ (0 : ℝ) ≤ 89
    constructor <;> norm_num

theorem mouseCalls_keeps_basis (c : Camera ℝ) (ws : List (Window ℝ))
    (h : c.WorldUp = ⟨0, 1, 0⟩ ∧
      Orthonormal (MathFns.mk Real.cos Real.sin Real.sqrt Real.pi) c.Front c.Right c.Up) :
    Orthonormal (MathFns.mk Real.cos Real.sin Real.sqrt Real.pi)
      (mouseCalls (MathFns.mk Real.cos Real.sin Real.sqrt Real.pi) c ws).Front
      (mouseCalls (MathFns.mk Real.cos Real.sin Real.sqrt Real.pi) c ws).Right
      (mouseCalls (MathFns.mk Real.cos Real.sin Real.sqrt Real.pi) c ws).Up := by
  induction ws generalizing c with
  | nil => exact h.2
  | cons w rest ih =>
    simp only [mouseCalls, List.foldl_cons]
    exact ih _ (HandleMouse_keeps_basis c w h)

/-- C7 (basis orthonormality), over exact real arithmetic with the real
cosine, sine and square root.  The vectors `Front`, `Right` and `Up` are
pairwise orthogonal and each has unit length (i) after `New`, (ii) after every
sequence of `HandleMouse` calls that follows `New`, and (iii) after a rotation
update by `HandleMouse` (cursor locked, look button held, no jump) of any
camera with `WorldUp = (0, 1, 0)`. -/
theorem basis_orthonormal (position : Vec3 ℝ) (windows : List (Window ℝ)) (c : Camera ℝ)
    (w : Window ℝ) (hup : c.WorldUp = ⟨0, 1, 0⟩) (hlocked : c.CursorLocked = true)
    (hheld : w.MouseButtonRight = true)
    (hsmall : ¬ (|w.cursorX - c.LastX| > 100 ∨ |c.LastY - w.cursorY| > 100)) :
    Orthonormal (MathFns.mk Real.cos Real.sin Real.sqrt Real.pi)
      (New (MathFns.mk Real.cos Real.sin Real.sqrt Real.pi) position).Front
      (New (MathFns.mk Real.cos Real.sin Real.sqrt Real.pi) position).Right
      (New (MathFns.mk Real.cos Real.sin Real.sqrt Real.pi) position).Up ∧
    Orthonormal (MathFns.mk Real.cos Real.sin Real.sqrt Real.pi)
      (mouseCalls (MathFns.mk Real.cos Real.sin Real.sqrt Real.pi)
        (New (MathFns.mk Real.cos Real.sin Real.sqrt Real.pi) position) windows).Front
      (mouseCalls (MathFns.mk Real.cos Real.sin Real.sqrt Real.pi)
        (New (MathFns.mk Real.cos Real.sin Real.sqrt Real.pi) position) windows).Right
      (mouseCalls (MathFns.mk Real.cos Real.sin Real.sqrt Real.pi)
        (New (MathFns.mk Real.cos Real.sin Real.sqrt Real.pi) position) windows).Up ∧
    Orthonormal (MathFns.mk Real.cos Real.sin Real.sqrt Real.pi)
      (HandleMouse (MathFns.mk Real.cos Real.sin Real.sqrt Real.pi) c w).1.Front
      (HandleMouse (MathFns.mk Real.cos Real.sin Real.sqrt Real.pi) c w).1.Right
      (HandleMouse (MathFns.mk Real.cos Real.sin Real.sqrt Real.pi) c w).1.Up :=
  ⟨(New_basis position).2, mouseCalls_keeps_basis _ windows (New_basis position),
    (HandleMouse_rotation_basis c w hup hlocked hheld hsmall).2⟩

/-- Witness of C7: the camera of `New` at `(0, 2, 6)`, two `HandleMouse` calls
(lock, then a move by `(30, -20)`), and a rotation update of the locked camera
by the cursor offset `(30, 20)`. -/
theorem basis_orthonormal_witness :
    Orthonormal (MathFns.mk Real.cos Real.sin Real.sqrt Real.pi)
      (New (MathFns.mk Real.cos Real.sin Real.sqrt Real.pi) ⟨0, 2, 6⟩).Front
      (New (MathFns.mk Real.cos Real.sin Real.sqrt Real.pi) ⟨0, 2, 6⟩).Right
      (New (MathFns.mk Real.cos Real.sin Real.sqrt Real.pi) ⟨0, 2, 6⟩).Up ∧
    Orthonormal (MathFns.mk Real.cos Real.sin Real.sqrt Real.pi)
      (mouseCalls (MathFns.mk Real.cos Real.sin Real.sqrt Real.pi)
        (New (MathFns.mk Real.cos Real.sin Real.sqrt Real.pi) ⟨0, 2, 6⟩)
        [⟨false, false, false, false, false, false, true, 640, 360, CursorMode.CursorNormal⟩,
         ⟨false, false, false, false, false, false, true, 670, 340,
           CursorMode.CursorDisabled⟩]).Front
      (mouseCalls (MathFns.mk Real.cos Real.sin Real.sqrt Real.pi)
        (New (MathFns.mk Real.cos Real.sin Real.sqrt Real.pi) ⟨0, 2, 6⟩)
        [⟨false, false, false, false, false, false, true, 640, 360, CursorMode.CursorNormal⟩,
         ⟨false, false, false, false, false, false, true, 670, 340,
           CursorMode.CursorDisabled⟩]).Right
      (mouseCalls (MathFns.mk Real.cos Real.sin Real.sqrt Real.pi)
        (New (MathFns.mk Real.cos Real.sin Real.sqrt Real.pi) ⟨0, 2, 6⟩)
        [⟨false, false, false, false, false, false, true, 640, 360, CursorMode.CursorNormal⟩,
         ⟨false, false, false, false, false, false, true, 670, 340,
           CursorMode.CursorDisabled⟩]).Up ∧
    Orthonormal (MathFns.mk Real.cos Real.sin Real.sqrt Real.pi)
      (HandleMouse (MathFns.mk Real.cos Real.sin Real.sqrt Real.pi)
        { New (MathFns.mk Real.cos Real.sin Real.sqrt Real.pi) ⟨0, 2, 6⟩ with
          CursorLocked := true }
        ⟨false, false, false, false, false, false, true, 30, -20,
          CursorMode.CursorDisabled⟩).1.Front
      (HandleMouse (MathFns.mk Real.cos Real.sin Real.sqrt Real.pi)
        { New (MathFns.mk Real.cos Real.sin Real.sqrt Real.pi) ⟨0, 2, 6⟩ with
          CursorLocked := true }
        ⟨false, false, false, false, false, false, true, 30, -20,
          CursorMode.CursorDisabled⟩).1.Right
      (HandleMouse (MathFns.mk Real.cos Real.sin Real.sqrt Real.pi)
        { New (MathFns.mk Real.cos Real.sin Real.sqrt Real.pi) ⟨0, 2, 6⟩ with
          CursorLocked := true }
        ⟨false, false, false, false, false, false, true, 30, -20,
          CursorMode.CursorDisabled⟩).1.Up :=
  basis_orthonormal ⟨0, 2, 6⟩
    [⟨false, false, false, false, false, false, true, 640, 360, CursorMode.CursorNormal⟩,
     ⟨false, false, false, false, false, false, true, 670, 340, CursorMode.CursorDisabled⟩]
    { New (MathFns.mk Real.cos Real.sin Real.sqrt Real.pi) ⟨0, 2, 6⟩ with CursorLocked := true }
    ⟨false, false, false, false, false, false, true, 30, -20, CursorMode.CursorDisabled⟩
    rfl rfl rfl
    (by
      show ¬ (|(30 : ℝ) - 0| > 100 ∨ |(0 : ℝ) - -20| > 100)
      norm_num [abs_of_pos])

/-! ## The baseline scenario -/

theorem front_at_baseline (c : Camera ℝ) (hyaw : c.Yaw = -90) (hpitch : c.Pitch = 0) :
    (updateVectors (MathFns.mk Real.cos Real.sin Real.sqrt Real.pi) c).Front = ⟨0, 0, -1⟩ := by
  have hF := Normalize_front (c.Yaw * (Real.pi / 180)) (c.Pitch * (Real.pi / 180))
  have e1 : (-90 : ℝ) * (Real.pi / 180) = -(Real.pi / 2) := by ring
  have e2 : (0 : ℝ) * (Real.pi / 180) = 0 := by ring
  simp only [updateVectors, degToRad, hF]
  simp only [hyaw, hpitch, e1, e2, Real.cos_neg, Real.sin_neg, Real.cos_pi_div_two,
    Real.sin_pi_div_two, Real.cos_zero, Real.sin_zero, mul_one, zero_mul]

theorem HandleMouse_front_at_baseline (c : Camera ℝ) (w : Window ℝ) (hyaw : c.Yaw = -90)
    (hpitch : c.Pitch = 0) (hlocked : c.CursorLocked = true)
    (hheld : w.MouseButtonRight = true) (hdx : w.cursorX = c.LastX)
    (hdy : w.cursorY = c.LastY) :
    (HandleMouse (MathFns.mk Real.cos Real.sin Real.sqrt Real.pi) c w).1.Front =
      ⟨0, 0, -1⟩ := by
  unfold HandleMouse
  have hj : ¬ (|c.LastX - c.LastX| > 100 ∨ |c.LastY - c.LastY| > 100) := by norm_num
  have h1 : ¬ ((0 : ℝ) + (c.LastY - c.LastY) * c.Sensitivity > 89) := by norm_num
  have h2 : ¬ ((0 : ℝ) + (c.LastY - c.LastY) * c.Sensitivity < -89) := by norm_num
  simp only [hheld, hlocked, hdx, hdy, hyaw, hpitch, if_true, Bool.not_true,
    Bool.false_eq_true, if_false, hj, h1, h2]
  apply front_at_baseline
  · show (-90 : ℝ) + (c.LastX - c.LastX) * c.Sensitivity = -90
    simp
  · show (0 : ℝ) + (c.LastY - c.LastY) * c.Sensitivity = 0
    simp

/-- C8, as stated, fails: for the camera that `New` produces (`Yaw = -90`,
`Pitch = 0`), a locked pointer update with delta `(0, 0)` yields exactly
`Front = (0, 0, -1)` over the reals, whose distance to `(0, 0, 1)` along the
z axis is 2; the vector points along `-Z`, not `+Z`. -/
theorem front_points_along_minus_z :
    (HandleMouse (MathFns.mk Real.cos Real.sin Real.sqrt Real.pi)
      { New (MathFns.mk Real.cos Real.sin Real.sqrt Real.pi) ⟨0, 2, 6⟩ with
        CursorLocked := true }
      ⟨false, false, false, false, false, false, true, 0, 0,
        CursorMode.CursorDisabled⟩).1.Front = ⟨0, 0, -1⟩ ∧
    |(HandleMouse (MathFns.mk Real.cos Real.sin Real.sqrt Real.pi)
      { New (MathFns.mk Real.cos Real.sin Real.sqrt Real.pi) ⟨0, 2, 6⟩ with
        CursorLocked := true }
      ⟨false, false, false, false, false, false, true, 0, 0,
        CursorMode.CursorDisabled⟩).1.Front.z - 1| = 2 := by
  have h := HandleMouse_front_at_baseline
    { New (MathFns.mk Real.cos Real.sin Real.sqrt Real.pi) ⟨0, 2, 6⟩ with CursorLocked := true }
    ⟨false, false, false, false, false, false, true, 0, 0, CursorMode.CursorDisabled⟩
    rfl rfl rfl rfl rfl rfl
  refine ⟨h, ?_⟩
  rw [h]
  show |(-1 : ℝ) - 1| = 2
  norm_num [abs_of_neg]

/-- C8, amended: for a camera at `Yaw = -90`, `Pitch = 0` (the state `New`
produces), a locked pointer update with delta `(dx = 0, dy = 0)` yields
`Front = (0, 0, -1)` over the reals, that is, pointing along `-Z`. -/
theorem baseline_front (c : Camera ℝ) (w : Window ℝ) (hyaw : c.Yaw = -90)
    (hpitch : c.Pitch = 0) (hlocked : c.CursorLocked = true)
    (hheld : w.MouseButtonRight = true) (hdx : w.cursorX = c.LastX)
    (hdy : w.cursorY = c.LastY) :
    (HandleMouse (MathFns.mk Real.cos Real.sin Real.sqrt Real.pi) c w).1.Front =
      ⟨0, 0, -1⟩ :=
  HandleMouse_front_at_baseline c w hyaw hpitch hlocked hheld hdx hdy

/-- Witness of C8 (amended) at the camera `New` produces at `(0, 2, 6)`, once
locked, with the cursor at its last position `(0, 0)`. -/
theorem baseline_front_witness :
    (HandleMouse (MathFns.mk Real.cos Real.sin Real.sqrt Real.pi)
      { New (MathFns.mk Real.cos Real.sin Real.sqrt Real.pi) ⟨0, 2, 6⟩ with
        CursorLocked := true }
      ⟨false, false, false, false, false, false, true, 0, 0,
        CursorMode.CursorDisabled⟩).1.Front = ⟨0, 0, -1⟩ :=
  baseline_front _ _ rfl rfl rfl rfl rfl rfl

/-- Witness of C5: the locked camera of `New` at `(0, 2, 6)` (last cursor
position `(0, 0)`) and a cursor sample at `(250, 3)`. -/
theorem HandleMouse_jump_rejected_witness :
    (HandleMouse (MathFns.mk Real.cos Real.sin Real.sqrt Real.pi)
      { New (MathFns.mk Real.cos Real.sin Real.sqrt Real.pi) ⟨0, 2, 6⟩ with
        CursorLocked := true }
      ⟨false, false, false, false, false, false, true, 250, 3,
        CursorMode.CursorDisabled⟩).1.Yaw = -90 ∧
    (HandleMouse (MathFns.mk Real.cos Real.sin Real.sqrt Real.pi)
      { New (MathFns.mk Real.cos Real.sin Real.sqrt Real.pi) ⟨0, 2, 6⟩ with
        CursorLocked := true }
      ⟨false, false, false, false, false, false, true, 250, 3,
        CursorMode.CursorDisabled⟩).1.Pitch = 0 ∧
    (HandleMouse (MathFns.mk Real.cos Real.sin Real.sqrt Real.pi)
      { New (MathFns.mk Real.cos Real.sin Real.sqrt Real.pi) ⟨0, 2, 6⟩ with
        CursorLocked := true }
      ⟨false, false, false, false, false, false, true, 250, 3,
        CursorMode.CursorDisabled⟩).1.Front =
      (New (MathFns.mk Real.cos Real.sin Real.sqrt Real.pi) ⟨0, 2, 6⟩).Front ∧
    (HandleMouse (MathFns.mk Real.cos Real.sin Real.sqrt Real.pi)
      { New (MathFns.mk Real.cos Real.sin Real.sqrt Real.pi) ⟨0, 2, 6⟩ with
        CursorLocked := true }
      ⟨false, false, false, false, false, false, true, 250, 3,
        CursorMode.CursorDisabled⟩).1.Right =
      (New (MathFns.mk Real.cos Real.sin Real.sqrt Real.pi) ⟨0, 2, 6⟩).Right ∧
    (HandleMouse (MathFns.mk Real.cos Real.sin Real.sqrt Real.pi)
      { New (MathFns.mk Real.cos Real.sin Real.sqrt Real.pi) ⟨0, 2, 6⟩ with
        CursorLocked := true }
      ⟨false, false, false, false, false, false, true, 250, 3,
        CursorMode.CursorDisabled⟩).1.Up =
      (New (MathFns.mk Real.cos Real.sin Real.sqrt Real.pi) ⟨0, 2, 6⟩).Up :=
  HandleMouse_jump_rejected (MathFns.mk Real.cos Real.sin Real.sqrt Real.pi)
    { New (MathFns.mk Real.cos Real.sin Real.sqrt Real.pi) ⟨0, 2, 6⟩ with CursorLocked := true }
    ⟨false, false, false, false, false, false, true, 250, 3, CursorMode.CursorDisabled⟩
    rfl rfl (Or.inl (by show |(250 : ℝ) - 0| > 100; norm_num))

/-- Witness of C6: the camera of `New` at `(0, 2, 6)`, not locked, with the
look button pressed and the cursor at `(640, 360)`. -/
theorem HandleMouse_first_lock_witness :
    (HandleMouse (MathFns.mk Real.cos Real.sin Real.sqrt Real.pi)
      (New (MathFns.mk Real.cos Real.sin Real.sqrt Real.pi) ⟨0, 2, 6⟩)
      ⟨false, false, false, false, false, false, true, 640, 360,
        CursorMode.CursorNormal⟩).1 =
      { New (MathFns.mk Real.cos Real.sin Real.sqrt Real.pi) ⟨0, 2, 6⟩ with
        CursorLocked := true, LastX := 640, LastY := 360 } :=
  HandleMouse_first_lock (MathFns.mk Real.cos Real.sin Real.sqrt Real.pi)
    (New (MathFns.mk Real.cos Real.sin Real.sqrt Real.pi) ⟨0, 2, 6⟩)
    ⟨false, false, false, false, false, false, true, 640, 360, CursorMode.CursorNormal⟩
    rfl rfl

end camera
